import Mathlib

/-!
Verification of the workshop reservation allocator
(`shared-cluster/workshop-ui/server`).

The repository contains two near-duplicate implementations of the same
allocator:

* the raw-SQL variant (`server/index.js` backed by the better-sqlite3
  database class): cluster / demo-user reservation is a conditional
  `UPDATE ... WHERE id = ? AND is_reserved = 0` whose `changes` count is
  checked, demo users are per-cluster, and there is no rollback of a
  cluster reservation when no demo user can be paired with it;

* the Prisma variant (the unnamed `index.js` sibling backed by
  `server/database.js`): `reserveCluster` / `reserveDemoUser` are plain
  Prisma `update` calls (they apply whether or not the record is already
  reserved), demo users form a global pool, and the cluster reservation is
  explicitly released when no demo user is available or its reservation
  fails.

Both variants are embedded below as pure functions over an explicit
`Store` value; every awaited store primitive of the Prisma variant is
additionally exposed as a single atomic step of a two-thread interpreter
so that interleavings of concurrent logins can be examined.
-/

/-- A record of the `clusters` table / Prisma `Cluster` model. -/
structure Cluster where
  id : Nat
  name : String
  url : String
  username : String
  password : String
  isReserved : Bool
  reservedBy : Option String
  reservedAt : Option Nat
  deriving Repr, DecidableEq

/-- A record of the `demo_users` table / Prisma `DemoUser` model.
`clusterId` is `some` in the per-cluster (raw-SQL) schema and `none` for
records of the global pool used by the Prisma variant. -/
structure DemoUser where
  id : Nat
  clusterId : Option Nat
  username : String
  password : String
  isReserved : Bool
  reservedBy : Option String
  reservedAt : Option Nat
  deriving Repr, DecidableEq

/-- A record of the `workshop_users` table / Prisma `WorkshopUser` model. -/
structure WorkshopUser where
  id : Nat
  email : String
  passwordHash : String
  clusterId : Option Nat
  demoUserId : Option Nat
  sessionToken : Option String
  lastLogin : Option Nat
  deriving Repr, DecidableEq

/-- A record of the Prisma `SharedCluster` model (read-only after creation). -/
structure SharedCluster where
  id : Nat
  name : String
  url : String
  deriving Repr, DecidableEq

/-- The whole persistent store. -/
structure Store where
  clusters : List Cluster
  demoUsers : List DemoUser
  workshopUsers : List WorkshopUser
  sharedClusters : List SharedCluster
  deriving Repr, DecidableEq

/-- `SELECT * FROM workshop_users WHERE email = ?` (unique email). -/
def findUserByEmail (s : Store) (email : String) : Option WorkshopUser :=
  s.workshopUsers.find? (fun u => u.email == email)

/-- `SELECT * FROM workshop_users WHERE session_token = ?`. -/
def findUserByToken (s : Store) (token : String) : Option WorkshopUser :=
  s.workshopUsers.find? (fun u => u.sessionToken == some token)

/-- `SELECT * FROM clusters WHERE id = ?`. -/
def findClusterById (s : Store) (cid : Nat) : Option Cluster :=
  s.clusters.find? (fun c => c.id == cid)

/-- `SELECT * FROM demo_users WHERE id = ?`. -/
def findDemoUserById (s : Store) (did : Nat) : Option DemoUser :=
  s.demoUsers.find? (fun d => d.id == did)

/-- `SELECT * FROM clusters WHERE is_reserved = 0`. -/
def availableClusters (s : Store) : List Cluster :=
  s.clusters.filter (fun c => !c.isReserved)

/-- `SELECT * FROM demo_users WHERE cluster_id = ? AND is_reserved = 0`
(the candidate set of the per-cluster `ORDER BY RANDOM() LIMIT 1` query). -/
def availableDemoUsersFor (s : Store) (cid : Nat) : List DemoUser :=
  s.demoUsers.filter (fun d => d.clusterId == some cid && !d.isReserved)

/-- `SELECT * FROM demo_users WHERE is_reserved = 0` (global pool). -/
def availableDemoUsers (s : Store) : List DemoUser :=
  s.demoUsers.filter (fun d => !d.isReserved)

/-- Conditional reservation of a cluster, the raw-SQL variant's
`UPDATE clusters SET is_reserved = 1, reserved_by = ?, reserved_at =
CURRENT_TIMESTAMP WHERE id = ? AND is_reserved = 0`.  Returns the updated
store together with the `changes` count reported by better-sqlite3. -/
def reserveClusterCAS (s : Store) (cid : Nat) (email : String) (now : Nat) :
    Store × Nat :=
  (⟨s.clusters.map (fun c =>
      if c.id == cid && !c.isReserved then
        { c with isReserved := true, reservedBy := some email,
                 reservedAt := some now }
      else c),
    s.demoUsers, s.workshopUsers, s.sharedClusters⟩,
   (s.clusters.filter (fun c => c.id == cid && !c.isReserved)).length)

/-- Conditional reservation of a demo user, the raw-SQL variant's
`UPDATE demo_users SET is_reserved = 1, ... WHERE id = ? AND
is_reserved = 0`. -/
def reserveDemoUserCAS (s : Store) (did : Nat) (email : String) (now : Nat) :
    Store × Nat :=
  (⟨s.clusters,
    s.demoUsers.map (fun d =>
      if d.id == did && !d.isReserved then
        { d with isReserved := true, reservedBy := some email,
                 reservedAt := some now }
      else d),
    s.workshopUsers, s.sharedClusters⟩,
   (s.demoUsers.filter (fun d => d.id == did && !d.isReserved)).length)

/-- `UPDATE workshop_users SET cluster_id = ?, demo_user_id = ?,
session_token = ?, last_login = CURRENT_TIMESTAMP WHERE id = ?`. -/
def bindUser (s : Store) (uid cid did : Nat) (token : String) (now : Nat) :
    Store :=
  ⟨s.clusters, s.demoUsers,
   s.workshopUsers.map (fun u =>
     if u.id == uid then
       { u with clusterId := some cid, demoUserId := some did,
                sessionToken := some token, lastLogin := some now }
     else u),
   s.sharedClusters⟩

/-- `UPDATE workshop_users SET session_token = ?, last_login =
CURRENT_TIMESTAMP WHERE id = ?` (the re-login path). -/
def refreshToken (s : Store) (uid : Nat) (token : String) (now : Nat) :
    Store :=
  ⟨s.clusters, s.demoUsers,
   s.workshopUsers.map (fun u =>
     if u.id == uid then
       { u with sessionToken := some token, lastLogin := some now }
     else u),
   s.sharedClusters⟩

/-- `UPDATE workshop_users SET session_token = NULL WHERE id = ?`. -/
def clearToken (s : Store) (uid : Nat) : Store :=
  ⟨s.clusters, s.demoUsers,
   s.workshopUsers.map (fun u =>
     if u.id == uid then { u with sessionToken := none } else u),
   s.sharedClusters⟩

/-- `UPDATE clusters SET is_reserved = 0, reserved_by = NULL,
reserved_at = NULL WHERE id = ?`. -/
def unreserveCluster (s : Store) (cid : Nat) : Store :=
  ⟨s.clusters.map (fun c =>
      if c.id == cid then
        { c with isReserved := false, reservedBy := none, reservedAt := none }
      else c),
    s.demoUsers, s.workshopUsers, s.sharedClusters⟩

/-- `UPDATE demo_users SET is_reserved = 0, reserved_by = NULL,
reserved_at = NULL WHERE id = ?`. -/
def unreserveDemoUser (s : Store) (did : Nat) : Store :=
  ⟨s.clusters,
    s.demoUsers.map (fun d =>
      if d.id == did then
        { d with isReserved := false, reservedBy := none, reservedAt := none }
      else d),
    s.workshopUsers, s.sharedClusters⟩

/-- `UPDATE workshop_users SET cluster_id = NULL, demo_user_id = NULL
WHERE id = ?`. -/
def clearAssignment (s : Store) (uid : Nat) : Store :=
  ⟨s.clusters, s.demoUsers,
   s.workshopUsers.map (fun u =>
     if u.id == uid then { u with clusterId := none, demoUserId := none }
     else u),
   s.sharedClusters⟩

/-- `lastInsertRowid` of an `INSERT INTO workshop_users`: one more than the
largest id present. -/
def nextUserId (s : Store) : Nat :=
  (s.workshopUsers.map (fun u => u.id)).foldr max 0 + 1

/-- `INSERT INTO workshop_users (email, password_hash) VALUES (?, ?)`;
the remaining columns default to NULL. -/
def insertUser (s : Store) (email passwordHash : String) :
    WorkshopUser × Store :=
  let u : WorkshopUser :=
    ⟨nextUserId s, email, passwordHash, none, none, none, none⟩
  (u, ⟨s.clusters, s.demoUsers, s.workshopUsers ++ [u], s.sharedClusters⟩)

/-- Outcome of `POST /api/auth/login`.  `success` carries the response
body: the session token and the resolved cluster display credentials. -/
inductive LoginResponse where
  /-- 400: missing email/password or password shorter than 4 characters. -/
  | invalidInput
  /-- 401: password hash mismatch. -/
  | invalidCredentials
  /-- 503: no cluster available / no candidate could be paired. -/
  | exhausted
  /-- 200: token plus cluster name, url, demo-user username and password. -/
  | success (token clusterName clusterUrl username password : String)
  deriving Repr, DecidableEq

/-- The raw-SQL reservation loop of `POST /api/auth/login`
(`index.js`, `for (const cluster of shuffledClusters)`): try the
conditional cluster reservation; on `changes === 0` move to the next
candidate; otherwise pick a random unreserved demo user of this cluster
(`pick` stands for `ORDER BY RANDOM() LIMIT 1`); if there is none,
`continue` — the code does NOT release the cluster reservation; otherwise
conditionally reserve the demo user (again `continue` without rollback on
failure) and finally bind the participant and return the pair. -/
def sqlTryClusters (email : String) (uid : Nat) (token : String) (now : Nat)
    (pick : List DemoUser → Option DemoUser) :
    List Cluster → Store → LoginResponse × Store
  | [], s => (.exhausted, s)
  | c :: rest, s =>
    let r1 := reserveClusterCAS s c.id email now
    if r1.2 = 0 then
      sqlTryClusters email uid token now pick rest r1.1
    else
      match pick (availableDemoUsersFor r1.1 c.id) with
      | none => sqlTryClusters email uid token now pick rest r1.1
      | some d =>
        let r2 := reserveDemoUserCAS r1.1 d.id email now
        if r2.2 = 0 then
          sqlTryClusters email uid token now pick rest r2.1
        else
          (.success token c.name c.url d.username d.password,
           bindUser r2.1 uid c.id d.id token now)

/-- The allocation section of the raw-SQL login: enumerate unreserved
clusters, fail 503 on empty, shuffle (`shuffle` stands for the randomized
`sort`), then run the reservation loop. -/
def sqlAllocate (token : String) (now : Nat)
    (shuffle : List Cluster → List Cluster)
    (pick : List DemoUser → Option DemoUser)
    (user : WorkshopUser) (s : Store) : LoginResponse × Store :=
  let avail := availableClusters s
  if avail.isEmpty then (.exhausted, s)
  else sqlTryClusters user.email user.id token now pick (shuffle avail) s

/-- `POST /api/auth/login` of the raw-SQL variant (`index.js`).
`compare`/`hash` model `bcrypt.compare`/`bcrypt.hash`, `token` is the
`uuidv4()` minted for this request, `now` the current timestamp, and
`shuffle`/`pick` the two random choices. -/
def sqlLogin (compare : String → String → Bool) (hash : String → String)
    (token : String) (now : Nat)
    (shuffle : List Cluster → List Cluster)
    (pick : List DemoUser → Option DemoUser)
    (email password : String) (s : Store) : LoginResponse × Store :=
  if email = "" ∨ password = "" then (.invalidInput, s)
  else if password.length < 4 then (.invalidInput, s)
  else
    match findUserByEmail s email with
    | some user =>
      if !compare password user.passwordHash then (.invalidCredentials, s)
      else
        match user.clusterId, user.demoUserId with
        | some cid, some did =>
          match findClusterById s cid, findDemoUserById s did with
          | some cluster, some demoUser =>
            if cluster.isReserved && demoUser.isReserved then
              (.success token cluster.name cluster.url demoUser.username
                 demoUser.password,
               refreshToken s user.id token now)
            else sqlAllocate token now shuffle pick user s
          | _, _ => sqlAllocate token now shuffle pick user s
        | _, _ => sqlAllocate token now shuffle pick user s
    | none =>
      let r := insertUser s email (hash password)
      sqlAllocate token now shuffle pick r.1 r.2

/-- Outcome of the simple handlers (logout / release). -/
inductive SimpleResponse where
  /-- 200 `{success:true}`. -/
  | ok
  /-- 400: missing token. -/
  | invalidInput
  /-- 401: token matches no participant. -/
  | unauthenticated
  /-- 404: nothing assigned. -/
  | notFound
  deriving Repr, DecidableEq

/-- `POST /api/auth/logout` of the raw-SQL variant: look the participant up
by session token and clear only the token (`session_token = NULL`). -/
def sqlLogout (token : String) (s : Store) : SimpleResponse × Store :=
  if token = "" then (.invalidInput, s)
  else
    match findUserByToken s token with
    | none => (.unauthenticated, s)
    | some user => (.ok, clearToken s user.id)

/-- `POST /api/user/release` of the raw-SQL variant (after the
`authenticateUser` middleware resolved the token): 404 when either
reference is NULL, otherwise un-reserve the cluster, un-reserve the demo
user, and clear the participant's assignment. -/
def sqlRelease (token : String) (s : Store) : SimpleResponse × Store :=
  match findUserByToken s token with
  | none => (.unauthenticated, s)
  | some user =>
    match user.clusterId, user.demoUserId with
    | some cid, some did =>
      (.ok, clearAssignment (unreserveDemoUser (unreserveCluster s cid) did)
              user.id)
    | _, _ => (.notFound, s)

/-- The aggregate counters returned by `GET /api/admin/stats`. -/
structure StatsResponse where
  clustersTotal : Nat
  clustersReserved : Nat
  clustersAvailable : Nat
  demoUsersTotal : Nat
  demoUsersReserved : Nat
  demoUsersAvailable : Nat
  workshopUsersTotal : Nat
  deriving Repr, DecidableEq

/-- `GET /api/admin/stats` of the raw-SQL variant: five `COUNT(*)` queries;
`available` is computed as `total - reserved`.  The handler performs no
writes, so it returns the store unchanged. -/
def sqlStats (s : Store) : StatsResponse × Store :=
  let totalClusters := s.clusters.length
  let reservedClusters := (s.clusters.filter (fun c => c.isReserved)).length
  let totalDemoUsers := s.demoUsers.length
  let reservedDemoUsers := (s.demoUsers.filter (fun d => d.isReserved)).length
  let totalWorkshopUsers := s.workshopUsers.length
  (⟨totalClusters, reservedClusters, totalClusters - reservedClusters,
    totalDemoUsers, reservedDemoUsers, totalDemoUsers - reservedDemoUsers,
    totalWorkshopUsers⟩, s)

/-- `GET /api/admin/stats` of the Prisma variant: fetch all records and
count with `filter`; `available` is the count of unreserved records. -/
def prismaStats (s : Store) : StatsResponse × Store :=
  (⟨s.clusters.length,
    (s.clusters.filter (fun c => c.isReserved)).length,
    (s.clusters.filter (fun c => !c.isReserved)).length,
    s.demoUsers.length,
    (s.demoUsers.filter (fun d => d.isReserved)).length,
    (s.demoUsers.filter (fun d => !d.isReserved)).length,
    s.workshopUsers.length⟩, s)

/-! ### The Prisma variant (`database.js` + its `index.js` sibling) -/

/-- `database.js` `reserveCluster`: a plain `prisma.cluster.update` — it
throws (`none`) only when no record has this id; when the record exists it
sets the reservation fields whether or not the cluster was already
reserved, and returns the updated record. -/
def prismaReserveCluster (s : Store) (cid : Nat) (email : String)
    (now : Nat) : Option (Cluster × Store) :=
  match s.clusters.find? (fun c => c.id == cid) with
  | none => none
  | some c =>
    let c' := { c with isReserved := true, reservedBy := some email,
                       reservedAt := some now }
    some (c', ⟨s.clusters.map (fun x => if x.id == cid then c' else x),
               s.demoUsers, s.workshopUsers, s.sharedClusters⟩)

/-- `database.js` `reserveDemoUser`: same unconditional `update`. -/
def prismaReserveDemoUser (s : Store) (did : Nat) (email : String)
    (now : Nat) : Option (DemoUser × Store) :=
  match s.demoUsers.find? (fun d => d.id == did) with
  | none => none
  | some d =>
    let d' := { d with isReserved := true, reservedBy := some email,
                       reservedAt := some now }
    some (d', ⟨s.clusters,
               s.demoUsers.map (fun x => if x.id == did then d' else x),
               s.workshopUsers, s.sharedClusters⟩)

/-- `database.js` `releaseCluster` (used both by the rollback inside the
login loop and by `POST /api/user/release`). -/
def prismaReleaseCluster (s : Store) (cid : Nat) : Store :=
  unreserveCluster s cid

/-- `database.js` `releaseDemoUser`. -/
def prismaReleaseDemoUser (s : Store) (did : Nat) : Store :=
  unreserveDemoUser s did

/-- `database.js` `updateWorkshopUser` with the binding payload
`{clusterId, demoUserId, sessionToken, lastLogin}`; `prisma.update` throws
(`none`) when no record has this id. -/
def prismaBindUser (s : Store) (uid cid did : Nat) (token : String)
    (now : Nat) : Option Store :=
  match s.workshopUsers.find? (fun u => u.id == uid) with
  | none => none
  | some _ => some (bindUser s uid cid did token now)

/-- `database.js` `updateWorkshopUser` with the re-login payload
`{sessionToken, lastLogin}`. -/
def prismaRefreshToken (s : Store) (uid : Nat) (token : String)
    (now : Nat) : Option Store :=
  match s.workshopUsers.find? (fun u => u.id == uid) with
  | none => none
  | some _ => some (refreshToken s uid token now)

/-- The Prisma reservation loop of `POST /api/auth/login`: reserve the
candidate (failure only when the record vanished → `continue`), pick a
random member of the global unreserved demo-user pool, release the cluster
and `continue` when there is none or when its reservation throws, bind on
success; a throwing `updateWorkshopUser` is caught by the surrounding
`try`/`catch` and also falls through to the next candidate. -/
def prismaTryClusters (email : String) (uid : Nat) (token : String)
    (now : Nat) (pick : List DemoUser → Option DemoUser) :
    List Cluster → Store → LoginResponse × Store
  | [], s => (.exhausted, s)
  | c :: rest, s =>
    match prismaReserveCluster s c.id email now with
    | none => prismaTryClusters email uid token now pick rest s
    | some (uc, s1) =>
      match pick (availableDemoUsers s1) with
      | none =>
        prismaTryClusters email uid token now pick rest
          (prismaReleaseCluster s1 c.id)
      | some d =>
        match prismaReserveDemoUser s1 d.id email now with
        | none =>
          prismaTryClusters email uid token now pick rest
            (prismaReleaseCluster s1 c.id)
        | some (ud, s2) =>
          match prismaBindUser s2 uid c.id d.id token now with
          | none => prismaTryClusters email uid token now pick rest s2
          | some s3 =>
            (.success token uc.name uc.url ud.username ud.password, s3)

/-- The allocation section of the Prisma login. -/
def prismaAllocate (token : String) (now : Nat)
    (shuffle : List Cluster → List Cluster)
    (pick : List DemoUser → Option DemoUser)
    (user : WorkshopUser) (s : Store) : LoginResponse × Store :=
  let avail := availableClusters s
  if avail.isEmpty then (.exhausted, s)
  else prismaTryClusters user.email user.id token now pick (shuffle avail) s

/-- `POST /api/auth/login` of the Prisma variant. -/
def prismaLogin (compare : String → String → Bool)
    (hash : String → String) (token : String) (now : Nat)
    (shuffle : List Cluster → List Cluster)
    (pick : List DemoUser → Option DemoUser)
    (email password : String) (s : Store) : LoginResponse × Store :=
  if email = "" ∨ password = "" then (.invalidInput, s)
  else if password.length < 4 then (.invalidInput, s)
  else
    match findUserByEmail s email with
    | some user =>
      if !compare password user.passwordHash then (.invalidCredentials, s)
      else
        match user.clusterId, user.demoUserId with
        | some cid, some did =>
          match findClusterById s cid, findDemoUserById s did with
          | some cluster, some demoUser =>
            if cluster.isReserved && demoUser.isReserved then
              (.success token cluster.name cluster.url demoUser.username
                 demoUser.password,
               refreshToken s user.id token now)
            else prismaAllocate token now shuffle pick user s
          | _, _ => prismaAllocate token now shuffle pick user s
        | _, _ => prismaAllocate token now shuffle pick user s
    | none =>
      let r := insertUser s email (hash password)
      prismaAllocate token now shuffle pick r.1 r.2

/-! ### Fine-grained interleaving of the Prisma login

In the Prisma variant every store primitive is awaited, so two concurrent
login requests can interleave between any two of them.  `PrismaPhase`
records where a request handler is suspended; `prismaStep` executes
exactly one awaited store operation of the allocation loop. -/

/-- The suspension point of one in-flight Prisma allocation. -/
inductive PrismaPhase where
  /-- About to run `findAvailableClusters`. -/
  | start
  /-- About to run `reserveCluster` on the head candidate. -/
  | tryCluster (cands : List Cluster)
  /-- Cluster reserved; about to run `findRandomAvailableDemoUser`. -/
  | findDemo (cands : List Cluster) (uc : Cluster)
  /-- Demo user chosen; about to run `reserveDemoUser`. -/
  | reserveDemo (cands : List Cluster) (uc : Cluster) (d : DemoUser)
  /-- Both reserved; about to run `updateWorkshopUser`. -/
  | bindStep (cands : List Cluster) (uc : Cluster) (ud : DemoUser)
  /-- About to run the rollback `releaseCluster` before continuing. -/
  | rollback (cands : List Cluster) (cid : Nat)
  /-- Handler finished with this response. -/
  | finished (r : LoginResponse)
  deriving Repr, DecidableEq

/-- One awaited store operation of the Prisma allocation loop, for the
participant `user` whose request minted `token`. -/
def prismaStep (user : WorkshopUser) (token : String) (now : Nat)
    (pick : List DemoUser → Option DemoUser)
    (ph : PrismaPhase) (s : Store) : PrismaPhase × Store :=
  match ph with
  | .start => (.tryCluster (availableClusters s), s)
  | .tryCluster [] => (.finished .exhausted, s)
  | .tryCluster (c :: rest) =>
    match prismaReserveCluster s c.id user.email now with
    | none => (.tryCluster rest, s)
    | some (uc, s1) => (.findDemo rest uc, s1)
  | .findDemo rest uc =>
    match pick (availableDemoUsers s) with
    | none => (.rollback rest uc.id, s)
    | some d => (.reserveDemo rest uc d, s)
  | .reserveDemo rest uc d =>
    match prismaReserveDemoUser s d.id user.email now with
    | none => (.rollback rest uc.id, s)
    | some (ud, s2) => (.bindStep rest uc ud, s2)
  | .bindStep rest uc ud =>
    match prismaBindUser s user.id uc.id ud.id token now with
    | none => (.tryCluster rest, s)
    | some s3 =>
      (.finished (.success token uc.name uc.url ud.username ud.password), s3)
  | .rollback rest cid => (.tryCluster rest, prismaReleaseCluster s cid)
  | .finished r => (.finished r, s)

/-- Run two concurrent Prisma allocations under an explicit schedule:
`true` steps the first thread, `false` the second. -/
def prismaRunTwo (u1 u2 : WorkshopUser) (t1 t2 : String) (now : Nat)
    (pick : List DemoUser → Option DemoUser) :
    List Bool → PrismaPhase × PrismaPhase × Store →
    PrismaPhase × PrismaPhase × Store
  | [], st => st
  | b :: rest, (p1, p2, s) =>
    if b then
      let r := prismaStep u1 t1 now pick p1 s
      prismaRunTwo u1 u2 t1 t2 now pick rest (r.1, p2, r.2)
    else
      let r := prismaStep u2 t2 now pick p2 s
      prismaRunTwo u1 u2 t1 t2 now pick rest (p1, r.1, r.2)

/-! ### The bulk loader (`db-manage-prisma.js`, `load-yaml`) -/

/-- One entry of the `user_clusters` YAML list. -/
structure ClusterEntry where
  cluster_url : Option String
  username : Option String
  deriving Repr, DecidableEq

/-- One entry of the `demo_users` YAML list. -/
structure DemoEntry where
  username : Option String
  password : Option String
  deriving Repr, DecidableEq

/-- The `shared_cluster` YAML section. -/
structure SharedEntry where
  cluster_url : Option String
  name : Option String
  deriving Repr, DecidableEq

/-- The parsed YAML data file: three optional top-level sections. -/
structure YamlData where
  shared_cluster : Option SharedEntry
  user_clusters : Option (List ClusterEntry)
  demo_users : Option (List DemoEntry)
  deriving Repr, DecidableEq

/-- Added/skipped counters reported by one `load-yaml` run. -/
structure LoadCounts where
  clustersAdded : Nat
  clustersSkipped : Nat
  demoUsersAdded : Nat
  demoUsersSkipped : Nat
  sharedAdded : Nat
  sharedSkipped : Nat
  deriving Repr, DecidableEq

/-- `prisma.cluster.create` as issued by the loader: empty static
credentials, fresh id. -/
def loaderAddCluster (s : Store) (nm url : String) : Store :=
  ⟨s.clusters ++
     [⟨(s.clusters.map (fun c => c.id)).foldr max 0 + 1, nm, url, "", "",
       false, none, none⟩],
   s.demoUsers, s.workshopUsers, s.sharedClusters⟩

/-- `prisma.demoUser.create` as issued by the loader (global pool). -/
def loaderAddDemoUser (s : Store) (un pw : String) : Store :=
  ⟨s.clusters,
   s.demoUsers ++
     [⟨(s.demoUsers.map (fun d => d.id)).foldr max 0 + 1, none, un, pw,
       false, none, none⟩],
   s.workshopUsers, s.sharedClusters⟩

/-- `prisma.sharedCluster.create` as issued by the loader. -/
def loaderAddShared (s : Store) (nm url : String) : Store :=
  ⟨s.clusters, s.demoUsers, s.workshopUsers,
   s.sharedClusters ++
     [⟨(s.sharedClusters.map (fun c => c.id)).foldr max 0 + 1, nm, url⟩]⟩

/-- `loadUserClustersData`: walk the entries keeping `addedCount` /
`skippedCount`; entries without `cluster_url` are skipped; the unique name
is `cluster-<username>` when a username is present and
`cluster-<addedCount+1>` otherwise; an existing name
(`prisma.cluster.findUnique({where:{name}})`) is skipped, otherwise the
cluster is created. -/
def loadUserClustersGo : List ClusterEntry → Store → Nat → Nat →
    Store × Nat × Nat
  | [], s, a, k => (s, a, k)
  | e :: rest, s, a, k =>
    match e.cluster_url with
    | none => loadUserClustersGo rest s a (k + 1)
    | some url =>
      let nm := match e.username with
        | some un => "cluster-" ++ un
        | none => "cluster-" ++ toString (a + 1)
      if s.clusters.any (fun c => c.name == nm) then
        loadUserClustersGo rest s a (k + 1)
      else
        loadUserClustersGo rest (loaderAddCluster s nm url) (a + 1) k

/-- `loadDemoUsersData`: entries missing either field are skipped; an
existing username (`prisma.demoUser.findUnique`) is skipped, otherwise the
demo user is created. -/
def loadDemoUsersGo : List DemoEntry → Store → Nat → Nat →
    Store × Nat × Nat
  | [], s, a, k => (s, a, k)
  | e :: rest, s, a, k =>
    match e.username, e.password with
    | some un, some pw =>
      if s.demoUsers.any (fun d => d.username == un) then
        loadDemoUsersGo rest s a (k + 1)
      else
        loadDemoUsersGo rest (loaderAddDemoUser s un pw) (a + 1) k
    | _, _ => loadDemoUsersGo rest s a (k + 1)

/-- `loadSharedClusterData`: missing `cluster_url` throws (`none`); the
name defaults to `shared-cluster`; an existing name is skipped, otherwise
the shared cluster is created.  The second component counts additions
(`1` added / `0` skipped). -/
def loadSharedClusterData (e : SharedEntry) (s : Store) :
    Option (Store × Nat) :=
  match e.cluster_url with
  | none => none
  | some url =>
    let nm := e.name.getD "shared-cluster"
    if s.sharedClusters.any (fun c => c.name == nm) then some (s, 0)
    else some (loaderAddShared s nm url, 1)

/-- `loadFromYaml`: load the shared cluster, then the user clusters, then
the demo users, for whichever sections are present; `none` models the
thrown error of a `shared_cluster` section without `cluster_url`. -/
def loadFromYaml (d : YamlData) (s : Store) : Option (Store × LoadCounts) :=
  let sharedStep : Option (Store × Nat × Nat) :=
    match d.shared_cluster with
    | none => some (s, 0, 0)
    | some e =>
      match loadSharedClusterData e s with
      | none => none
      | some (s', a) => some (s', a, 1 - a)
  match sharedStep with
  | none => none
  | some (s1, sa, sk) =>
    let rc : Store × Nat × Nat :=
      match d.user_clusters with
      | none => (s1, 0, 0)
      | some entries => loadUserClustersGo entries s1 0 0
    let rd : Store × Nat × Nat :=
      match d.demo_users with
      | none => (rc.1, 0, 0)
      | some entries => loadDemoUsersGo entries rc.1 0 0
    some (rd.1, ⟨rc.2.1, rc.2.2, rd.2.1, rd.2.2, sa, sk⟩)

/-! ### Concrete scenarios -/

/-- The empty store. -/
def emptyStore : Store := ⟨[], [], [], []⟩

/-- Store for the missing-rollback scenario of the raw-SQL login:
cluster 1 has no demo users, cluster 2 has one, and the participant
`p@x` exists without a binding. -/
def noRollbackStore : Store :=
  ⟨[⟨1, "c1", "https://c1", "", "", false, none, none⟩,
    ⟨2, "c2", "https://c2", "", "", false, none, none⟩],
   [⟨1, some 2, "demo", "pw", false, none, none⟩],
   [⟨1, "p@x", "H", none, none, none, none⟩],
   []⟩

/-- The raw-SQL login run on `noRollbackStore` with the identity shuffle
(candidate order cluster 1 then cluster 2). -/
def noRollbackRun : LoginResponse × Store :=
  sqlLogin (fun _ _ => true) (fun p => p) "tok" 5 id List.head?
    "p@x" "pass" noRollbackStore

/-- Store for the interleaved Prisma double-allocation: one free cluster,
two free global demo users, two unbound participants. -/
def doubleHoldStore : Store :=
  ⟨[⟨1, "c1", "https://c1", "", "", false, none, none⟩],
   [⟨1, none, "d1", "pw1", false, none, none⟩,
    ⟨2, none, "d2", "pw2", false, none, none⟩],
   [⟨1, "p@x", "H", none, none, none, none⟩,
    ⟨2, "q@x", "H", none, none, none, none⟩],
   []⟩

/-- The schedule interleaving the two Prisma logins: both enumerate the
free clusters, then both run `reserveCluster` on cluster 1 (the second
call applies although the cluster is reserved — the Prisma `update` is
unconditional), then each pairs a demo user and binds. -/
def doubleHoldFinal : PrismaPhase × PrismaPhase × Store :=
  prismaRunTwo ⟨1, "p@x", "H", none, none, none, none⟩
    ⟨2, "q@x", "H", none, none, none, none⟩ "tp" "tq" 5 List.head?
    [true, false, true, false, true, true, true, false, false, false]
    (.start, .start, doubleHoldStore)

/-- A store whose only cluster is already reserved by `alice`. -/
def aliceStore : Store :=
  ⟨[⟨1, "c1", "https://c1", "", "", true, some "alice", some 1⟩],
   [], [], []⟩

/-- The YAML data file whose second cluster entry has no `username`. -/
def mixedYaml : YamlData :=
  ⟨none,
   some [⟨some "https://a", some "bob"⟩, ⟨some "https://b", none⟩],
   none⟩

/-- First `load-yaml` run of `mixedYaml` against the empty store. -/
def mixedYamlRun1 : Option (Store × LoadCounts) :=
  loadFromYaml mixedYaml emptyStore

/-- Second `load-yaml` run of `mixedYaml` against the result of the first. -/
def mixedYamlRun2 : Option (Store × LoadCounts) :=
  match mixedYamlRun1 with
  | some (s, _) => loadFromYaml mixedYaml s
  | none => none

/-! ### Counterexample and evaluation theorems -/

/-- C1 (counterexample): under an interleaving of two concurrent Prisma
logins, both requests succeed and the single cluster ends up reserved
while BOTH participants' `clusterId` reference it — mutual exclusion is
violated, and the Prisma `reserveCluster` involved is not a conditional
update. -/
theorem prisma_interleaving_double_hold :
    (∃ c ∈ doubleHoldFinal.2.2.clusters, c.id = 1 ∧ c.isReserved = true) ∧
    (doubleHoldFinal.2.2.workshopUsers.filter
        (fun u => u.clusterId == some 1)).length = 2 ∧
    (∃ r1, doubleHoldFinal.1 = .finished (.success "tp" "c1" "https://c1" "d1" r1)) ∧
    (∃ r2, doubleHoldFinal.2.1 = .finished (.success "tq" "c1" "https://c1" "d2" r2)) := by
  refine ⟨⟨⟨1, "c1", "https://c1", "", "", true, some "q@x", some 5⟩, ?_, rfl, rfl⟩,
          rfl, ⟨"pw1", rfl⟩, ⟨"pw2", rfl⟩⟩
  decide

/-- C2 (counterexample): the raw-SQL login reserves cluster 1, finds no
demo user for it, and moves to cluster 2 WITHOUT releasing cluster 1: the
run succeeds on cluster 2 yet leaves cluster 1 reserved with no
participant bound to it. -/
theorem sql_login_no_rollback_leaves_orphan :
    noRollbackRun.1 = .success "tok" "c2" "https://c2" "demo" "pw" ∧
    (∃ c ∈ noRollbackRun.2.clusters, c.id = 1 ∧ c.isReserved = true) ∧
    (∀ u ∈ noRollbackRun.2.workshopUsers, u.clusterId ≠ some 1) := by
  refine ⟨rfl, ⟨⟨1, "c1", "https://c1", "", "", true, some "p@x", some 5⟩,
    ?_, rfl, rfl⟩, ?_⟩ <;> decide

/-- C3 (code bug evaluated at the failing input): on a cluster already
reserved by `alice`, the raw-SQL conditional `UPDATE` reports `changes = 0`
and leaves the store unchanged, whereas the Prisma `reserveCluster` on the
very same record "succeeds" and overwrites the reservation with `bob`. -/
theorem reserve_conditional_sql_unconditional_prisma :
    reserveClusterCAS aliceStore 1 "bob" 7 = (aliceStore, 0) ∧
    prismaReserveCluster aliceStore 1 "bob" 7 =
      some (⟨1, "c1", "https://c1", "", "", true, some "bob", some 7⟩,
            ⟨[⟨1, "c1", "https://c1", "", "", true, some "bob", some 7⟩],
             [], [], []⟩) := by
  exact ⟨rfl, rfl⟩

/-- C8 (counterexample): running the bulk loader twice on the same data
file is not idempotent: the first run adds `cluster-bob` and `cluster-2`,
and because the fallback name depends on the running added-count, the
second run derives the name `cluster-1` for the username-less entry and
adds a third record instead of reporting zero additions. -/
theorem loader_second_run_adds_cluster :
    (mixedYamlRun1.map (fun r => r.1.clusters.length) = some 2) ∧
    (mixedYamlRun2.map (fun r => r.1.clusters.length) = some 3) ∧
    (mixedYamlRun2.map (fun r => r.2.clustersAdded) = some 1) := by
  exact ⟨rfl, rfl, rfl⟩

/-! ### Admin stats (C9) -/

/-- The records failing a test are the rest of the list. -/
theorem length_filter_not_eq_sub (l : List α) (p : α → Bool) :
    (l.filter (fun a => !p a)).length = l.length - (l.filter p).length := by
  have h := List.length_eq_length_filter_add (l := l) p
  omega

/-- C9: both variants' `GET /api/admin/stats` report totals, reserved and
available counts computed from the live store, with
`available = total - reserved` in each category and the total Participant
count, and neither handler mutates any record. -/
theorem stats_counts_consistent_no_mutation :
    ∀ s : Store,
      (sqlStats s).1.clustersTotal = s.clusters.length ∧
      (sqlStats s).1.clustersReserved =
        (s.clusters.filter (fun c => c.isReserved)).length ∧
      (sqlStats s).1.clustersAvailable =
        (sqlStats s).1.clustersTotal - (sqlStats s).1.clustersReserved ∧
      (sqlStats s).1.demoUsersTotal = s.demoUsers.length ∧
      (sqlStats s).1.demoUsersReserved =
        (s.demoUsers.filter (fun d => d.isReserved)).length ∧
      (sqlStats s).1.demoUsersAvailable =
        (sqlStats s).1.demoUsersTotal - (sqlStats s).1.demoUsersReserved ∧
      (sqlStats s).1.workshopUsersTotal = s.workshopUsers.length ∧
      (sqlStats s).2 = s ∧
      (prismaStats s).1.clustersTotal = s.clusters.length ∧
      (prismaStats s).1.clustersReserved =
        (s.clusters.filter (fun c => c.isReserved)).length ∧
      (prismaStats s).1.clustersAvailable =
        (prismaStats s).1.clustersTotal - (prismaStats s).1.clustersReserved ∧
      (prismaStats s).1.demoUsersTotal = s.demoUsers.length ∧
      (prismaStats s).1.demoUsersReserved =
        (s.demoUsers.filter (fun d => d.isReserved)).length ∧
      (prismaStats s).1.demoUsersAvailable =
        (prismaStats s).1.demoUsersTotal - (prismaStats s).1.demoUsersReserved ∧
      (prismaStats s).1.workshopUsersTotal = s.workshopUsers.length ∧
      (prismaStats s).2 = s := by
  intro s
  refine ⟨rfl, rfl, rfl, rfl, rfl, rfl, rfl, rfl, rfl, rfl, ?_, rfl, rfl, ?_,
    rfl, rfl⟩
  · show (s.clusters.filter (fun c => !c.isReserved)).length =
      s.clusters.length - (s.clusters.filter (fun c => c.isReserved)).length
    exact length_filter_not_eq_sub s.clusters (fun c => c.isReserved)
  · show (s.demoUsers.filter (fun d => !d.isReserved)).length =
      s.demoUsers.length - (s.demoUsers.filter (fun d => d.isReserved)).length
    exact length_filter_not_eq_sub s.demoUsers (fun d => d.isReserved)

/-! ### Helper lemmas -/

/-- Two members of a list whose images under `f` are pairwise distinct and
agree on `f` are the same member. -/
theorem eq_of_pairwise_ne_of_eq {α β : Type} {f : α → β} :
    ∀ {l : List α}, l.Pairwise (fun a b => f a ≠ f b) →
      ∀ {a b : α}, a ∈ l → b ∈ l → f a = f b → a = b := by
  intro l hpw
  induction l with
  | nil => intro a b ha; cases ha
  | cons x t ih =>
    intro a b ha hb hfab
    rcases List.mem_cons.mp ha with rfl | ha' <;>
      rcases List.mem_cons.mp hb with rfl | hb'
    · rfl
    · exact absurd hfab ((List.pairwise_cons.mp hpw).1 b hb')
    · exact absurd hfab.symm ((List.pairwise_cons.mp hpw).1 a ha')
    · exact ih (List.pairwise_cons.mp hpw).2 ha' hb' hfab

/-- Every element is at most the `foldr max 0` of its list. -/
theorem le_foldr_max : ∀ (l : List Nat), ∀ x ∈ l, x ≤ l.foldr max 0 := by
  intro l
  induction l with
  | nil => intro x hx; cases hx
  | cons y t ih =>
    intro x hx
    rcases List.mem_cons.mp hx with rfl | hx'
    · exact Nat.le_max_left _ _
    · exact Nat.le_trans (ih x hx') (Nat.le_max_right _ _)

/-- The id handed to a freshly inserted workshop user is larger than every
existing id. -/
theorem id_lt_nextUserId (s : Store) :
    ∀ u ∈ s.workshopUsers, u.id < nextUserId s := by
  intro u hu
  have : u.id ∈ s.workshopUsers.map (fun u => u.id) :=
    List.mem_map.mpr ⟨u, hu, rfl⟩
  exact Nat.lt_succ_of_le (le_foldr_max _ _ this)

/-! ### Logout (C7) -/

/-- C7: for every Participant matched by a valid session token, the
raw-SQL logout succeeds and the resulting store differs from the original
only in that the matched Participant's `sessionToken` is NULL: clusters,
demo users and shared clusters are untouched, and every workshop user
keeps its id, email, password hash, `clusterId`, `demoUserId` and
`lastLogin`. -/
theorem sql_logout_clears_only_session_token
    (s : Store) (token : String) (p : WorkshopUser)
    (htok : token ≠ "")
    (hfind : findUserByToken s token = some p) :
    (sqlLogout token s).1 = .ok ∧
    (sqlLogout token s).2.clusters = s.clusters ∧
    (sqlLogout token s).2.demoUsers = s.demoUsers ∧
    (sqlLogout token s).2.sharedClusters = s.sharedClusters ∧
    (sqlLogout token s).2.workshopUsers = s.workshopUsers.map (fun u =>
      if u.id == p.id then { u with sessionToken := none } else u) ∧
    (sqlLogout token s).2.workshopUsers.map (fun u =>
        (u.id, u.email, u.passwordHash, u.clusterId, u.demoUserId,
         u.lastLogin)) =
      s.workshopUsers.map (fun u =>
        (u.id, u.email, u.passwordHash, u.clusterId, u.demoUserId,
         u.lastLogin)) := by
  have hrun : sqlLogout token s = (.ok, clearToken s p.id) := by
    unfold sqlLogout
    rw [if_neg htok, hfind]
  refine ⟨by rw [hrun], by rw [hrun]; rfl, by rw [hrun]; rfl,
          by rw [hrun]; rfl, by rw [hrun]; rfl, ?_⟩
  rw [hrun]
  show (s.workshopUsers.map (fun u =>
      if u.id == p.id then { u with sessionToken := none } else u)).map _ = _
  rw [List.map_map]
  apply List.map_congr_left
  intro u _
  by_cases h : u.id = p.id <;> simp [h]

/-- A store with one fully bound participant (`p@x` holding cluster 1 and
demo user 1 under session token `t`). -/
def boundStore : Store :=
  ⟨[⟨1, "c1", "https://c1", "", "", true, some "p@x", some 1⟩],
   [⟨1, some 1, "demo", "pw", true, some "p@x", some 1⟩],
   [⟨1, "p@x", "H", some 1, some 1, some "t", some 1⟩],
   []⟩

/-- The bound participant of `boundStore`. -/
def boundUser : WorkshopUser := ⟨1, "p@x", "H", some 1, some 1, some "t", some 1⟩

/-- C7 witness: the logout theorem applied to `boundStore` and token `t`. -/
theorem sql_logout_clears_only_session_token_witness :
    ("t" : String) ≠ "" ∧ findUserByToken boundStore "t" = some boundUser ∧
    (sqlLogout "t" boundStore).1 = .ok :=
  ⟨by decide, by decide,
   (sql_logout_clears_only_session_token boundStore "t" boundUser
     (by decide) (by decide)).1⟩

/-! ### Release (C6) -/

/-- C6: for every Participant matched by a valid session token: when both
references are set, release succeeds, un-reserves exactly the referenced
Cluster and DemoUser (clearing `reservedBy`/`reservedAt`), clears only the
Participant's `clusterId`/`demoUserId`, and leaves every other record —
and every other field, including the session token — unchanged; when
either reference is NULL, release returns 404 and changes nothing. -/
theorem sql_release_frees_exactly_bound_pair
    (s : Store) (token : String) (p : WorkshopUser)
    (hfind : findUserByToken s token = some p) :
    (∀ cid did, p.clusterId = some cid → p.demoUserId = some did →
      (sqlRelease token s).1 = .ok ∧
      (sqlRelease token s).2.clusters = s.clusters.map (fun c =>
        if c.id == cid then
          { c with isReserved := false, reservedBy := none,
                   reservedAt := none }
        else c) ∧
      (sqlRelease token s).2.demoUsers = s.demoUsers.map (fun d =>
        if d.id == did then
          { d with isReserved := false, reservedBy := none,
                   reservedAt := none }
        else d) ∧
      (sqlRelease token s).2.workshopUsers = s.workshopUsers.map (fun u =>
        if u.id == p.id then { u with clusterId := none, demoUserId := none }
        else u) ∧
      (sqlRelease token s).2.sharedClusters = s.sharedClusters) ∧
    ((p.clusterId = none ∨ p.demoUserId = none) →
      sqlRelease token s = (.notFound, s)) := by
  constructor
  · intro cid did hcid hdid
    have hrun : sqlRelease token s =
        (.ok, clearAssignment
          (unreserveDemoUser (unreserveCluster s cid) did) p.id) := by
      simp [sqlRelease, hfind, hcid, hdid]
    exact ⟨by rw [hrun], by rw [hrun]; rfl, by rw [hrun]; rfl,
           by rw [hrun]; rfl, by rw [hrun]; rfl⟩
  · intro hnone
    rcases hnone with h | h
    · rcases hd : p.demoUserId with _ | d <;>
        simp [sqlRelease, hfind, h, hd]
    · rcases hc : p.clusterId with _ | c <;>
        simp [sqlRelease, hfind, h, hc]

/-- C6 witness: the release theorem applied to `boundStore`. -/
theorem sql_release_frees_exactly_bound_pair_witness :
    findUserByToken boundStore "t" = some boundUser ∧
    (sqlRelease "t" boundStore).1 = .ok :=
  ⟨by decide,
   ((sql_release_frees_exactly_bound_pair boundStore "t" boundUser
       (by decide)).1 1 1 (by decide) (by decide)).1⟩

/-! ### Idempotent re-login (C4) -/

/-- C4: when the Participant's `clusterId`/`demoUserId` are set and the
referenced Cluster and DemoUser both still have `isReserved = true`, a
login with correct credentials performs no allocation: it returns the very
same Cluster/DemoUser display pair, stores a freshly minted session token
(different from the previous one, `uuidv4` freshness being the
hypothesis), refreshes `lastLogin`, and leaves every Cluster and DemoUser
record — and every other Participant — unchanged. -/
theorem sql_relogin_same_pair_fresh_token
    (compare : String → String → Bool) (hash : String → String)
    (token : String) (now : Nat) (shuffle : List Cluster → List Cluster)
    (pick : List DemoUser → Option DemoUser)
    (email password : String) (s : Store) (p : WorkshopUser)
    (c : Cluster) (d : DemoUser) (cid did : Nat)
    (hemail : email ≠ "") (hpw : password ≠ "")
    (hlen : ¬ password.length < 4)
    (hfind : findUserByEmail s email = some p)
    (hcmp : compare password p.passwordHash = true)
    (hcid : p.clusterId = some cid) (hdid : p.demoUserId = some did)
    (hc : findClusterById s cid = some c)
    (hd : findDemoUserById s did = some d)
    (hcr : c.isReserved = true) (hdr : d.isReserved = true)
    (hfresh : some token ≠ p.sessionToken) :
    sqlLogin compare hash token now shuffle pick email password s =
      (.success token c.name c.url d.username d.password,
       refreshToken s p.id token now) ∧
    (refreshToken s p.id token now).clusters = s.clusters ∧
    (refreshToken s p.id token now).demoUsers = s.demoUsers ∧
    (refreshToken s p.id token now).sharedClusters = s.sharedClusters ∧
    (refreshToken s p.id token now).workshopUsers =
      s.workshopUsers.map (fun u =>
        if u.id == p.id then
          { u with sessionToken := some token, lastLogin := some now }
        else u) ∧
    some token ≠ p.sessionToken := by
  refine ⟨?_, rfl, rfl, rfl, rfl, hfresh⟩
  simp [sqlLogin, hemail, hpw, hlen, hfind, hcmp, hcid, hdid, hc, hd,
    hcr, hdr]

/-- C4 witness: re-login on `boundStore` with a fresh token. -/
theorem sql_relogin_same_pair_fresh_token_witness :
    findUserByEmail boundStore "p@x" = some boundUser ∧
    sqlLogin (fun _ _ => true) (fun h => h) "t2" 9 id List.head?
        "p@x" "pass" boundStore =
      (.success "t2" "c1" "https://c1" "demo" "pw",
       refreshToken boundStore 1 "t2" 9) :=
  ⟨by decide,
   (sql_relogin_same_pair_fresh_token (fun _ _ => true) (fun h => h)
     "t2" 9 id List.head? "p@x" "pass" boundStore boundUser
     ⟨1, "c1", "https://c1", "", "", true, some "p@x", some 1⟩
     ⟨1, some 1, "demo", "pw", true, some "p@x", some 1⟩ 1 1
     (by decide) (by decide) (by decide) (by decide) rfl (by decide)
     (by decide) (by decide) (by decide) rfl rfl (by decide)).1⟩

/-! ### Exhaustion (C5) -/

/-- C5: a login from a brand-new email with valid input against a store
with no unreserved Cluster fails with 503 and creates no binding: the
Participant row is created with NULL `clusterId`, `demoUserId` and
`sessionToken`, and no Cluster or DemoUser record is modified. -/
theorem sql_login_exhausted_no_binding
    (compare : String → String → Bool) (hash : String → String)
    (token : String) (now : Nat) (shuffle : List Cluster → List Cluster)
    (pick : List DemoUser → Option DemoUser)
    (email password : String) (s : Store)
    (hemail : email ≠ "") (hpw : password ≠ "")
    (hlen : ¬ password.length < 4)
    (hnew : findUserByEmail s email = none)
    (hempty : availableClusters s = []) :
    sqlLogin compare hash token now shuffle pick email password s =
      (.exhausted,
       ⟨s.clusters, s.demoUsers,
        s.workshopUsers ++
          [⟨nextUserId s, email, hash password, none, none, none, none⟩],
        s.sharedClusters⟩) := by
  have hins : insertUser s email (hash password) =
      (⟨nextUserId s, email, hash password, none, none, none, none⟩,
       ⟨s.clusters, s.demoUsers,
        s.workshopUsers ++
          [⟨nextUserId s, email, hash password, none, none, none, none⟩],
        s.sharedClusters⟩) := rfl
  have havail : availableClusters
      (⟨s.clusters, s.demoUsers,
        s.workshopUsers ++
          [⟨nextUserId s, email, hash password, none, none, none, none⟩],
        s.sharedClusters⟩ : Store) = [] := hempty
  simp [sqlLogin, hemail, hpw, hlen, hnew, hins, sqlAllocate, havail]

/-- C5 witness: a fresh email against a store whose only cluster is
reserved. -/
theorem sql_login_exhausted_no_binding_witness :
    findUserByEmail boundStore "new@x" = none ∧
    availableClusters boundStore = [] ∧
    sqlLogin (fun _ _ => true) (fun h => h) "t3" 9 id List.head?
        "new@x" "pass" boundStore =
      (.exhausted,
       ⟨boundStore.clusters, boundStore.demoUsers,
        boundStore.workshopUsers ++
          [⟨2, "new@x", "pass", none, none, none, none⟩],
        boundStore.sharedClusters⟩) :=
  ⟨by decide, by decide,
   sql_login_exhausted_no_binding (fun _ _ => true) (fun h => h) "t3" 9
     id List.head? "new@x" "pass" boundStore (by decide) (by decide)
     (by decide) (by decide) (by decide)⟩

/-! ### Token round-trip (C10) -/

/-- One unfolding step of the raw-SQL reservation loop. -/
theorem sqlTryClusters_cons (em : String) (uid : Nat) (tk : String)
    (now : Nat) (pick : List DemoUser → Option DemoUser)
    (c : Cluster) (rest : List Cluster) (s : Store) :
    sqlTryClusters em uid tk now pick (c :: rest) s =
      if (reserveClusterCAS s c.id em now).2 = 0 then
        sqlTryClusters em uid tk now pick rest
          (reserveClusterCAS s c.id em now).1
      else
        match pick (availableDemoUsersFor
            (reserveClusterCAS s c.id em now).1 c.id) with
        | none => sqlTryClusters em uid tk now pick rest
            (reserveClusterCAS s c.id em now).1
        | some d =>
          if (reserveDemoUserCAS (reserveClusterCAS s c.id em now).1
              d.id em now).2 = 0 then
            sqlTryClusters em uid tk now pick rest
              (reserveDemoUserCAS (reserveClusterCAS s c.id em now).1
                d.id em now).1
          else
            (.success tk c.name c.url d.username d.password,
             bindUser (reserveDemoUserCAS
                 (reserveClusterCAS s c.id em now).1 d.id em now).1
               uid c.id d.id tk now) := rfl

/-- The conditional cluster reservation does not touch workshop users. -/
theorem reserveClusterCAS_workshopUsers (s : Store) (cid : Nat)
    (em : String) (now : Nat) :
    (reserveClusterCAS s cid em now).1.workshopUsers = s.workshopUsers :=
  rfl

/-- The conditional demo-user reservation does not touch workshop users. -/
theorem reserveDemoUserCAS_workshopUsers (s : Store) (did : Nat)
    (em : String) (now : Nat) :
    (reserveDemoUserCAS s did em now).1.workshopUsers = s.workshopUsers :=
  rfl

/-- Binding the participant record maps exactly the caller's row. -/
theorem bindUser_workshopUsers (s : Store) (uid cid did : Nat)
    (tk : String) (now : Nat) :
    (bindUser s uid cid did tk now).workshopUsers =
      s.workshopUsers.map (fun u =>
        if u.id == uid then
          { u with clusterId := some cid, demoUserId := some did,
                   sessionToken := some tk, lastLogin := some now }
        else u) := rfl

/-- The raw-SQL reservation loop either fails leaving the workshop users
untouched, or succeeds returning the minted token and updating exactly the
caller's record with the bound pair and that token. -/
theorem sqlTryClusters_users_shape (em : String) (uid : Nat) (tk : String)
    (now : Nat) (pick : List DemoUser → Option DemoUser) :
    ∀ (cands : List Cluster) (s : Store),
      ((sqlTryClusters em uid tk now pick cands s).1 = .exhausted ∧
       (sqlTryClusters em uid tk now pick cands s).2.workshopUsers =
         s.workshopUsers) ∨
      (∃ cn cu un pw cid did,
        (sqlTryClusters em uid tk now pick cands s).1 =
          .success tk cn cu un pw ∧
        (sqlTryClusters em uid tk now pick cands s).2.workshopUsers =
          s.workshopUsers.map (fun u =>
            if u.id == uid then
              { u with clusterId := some cid, demoUserId := some did,
                       sessionToken := some tk, lastLogin := some now }
            else u)) := by
  intro cands
  induction cands with
  | nil => intro s; left; exact ⟨rfl, rfl⟩
  | cons c rest ih =>
    intro s
    by_cases h1 : (reserveClusterCAS s c.id em now).2 = 0
    · rw [sqlTryClusters_cons, if_pos h1]
      have := ih (reserveClusterCAS s c.id em now).1
      rwa [reserveClusterCAS_workshopUsers] at this
    · rcases h2 : pick (availableDemoUsersFor
          (reserveClusterCAS s c.id em now).1 c.id) with _ | d
      · rw [sqlTryClusters_cons, if_neg h1, h2]
        have := ih (reserveClusterCAS s c.id em now).1
        rwa [reserveClusterCAS_workshopUsers] at this
      · rw [sqlTryClusters_cons, if_neg h1, h2]
        by_cases h3 : (reserveDemoUserCAS
            (reserveClusterCAS s c.id em now).1 d.id em now).2 = 0
        · have := ih (reserveDemoUserCAS
            (reserveClusterCAS s c.id em now).1 d.id em now).1
          rw [reserveDemoUserCAS_workshopUsers,
            reserveClusterCAS_workshopUsers] at this
          simpa [h3] using this
        · right
          refine ⟨c.name, c.url, d.username, d.password, c.id, d.id,
            ?_, ?_⟩ <;>
          simp [h3, bindUser_workshopUsers,
            reserveDemoUserCAS_workshopUsers,
            reserveClusterCAS_workshopUsers]

/-- Scanning the token-updated user list finds a record carrying the fresh
token and the caller's email: the updater `f` touches exactly the records
with the caller's id, every other record's token is stale, and ids are
pairwise distinct. -/
theorem find_token_in_mapped
    (uid : Nat) (email token : String) (f : WorkshopUser → WorkshopUser)
    (h1 : ∀ u, u.id ≠ uid → f u = u)
    (h2 : ∀ u, u.id = uid →
      (f u).sessionToken = some token ∧ (f u).email = u.email) :
    ∀ (users : List WorkshopUser),
      users.Pairwise (fun a b => a.id ≠ b.id) →
      (∀ u ∈ users, u.sessionToken ≠ some token) →
      (∃ p0 ∈ users, p0.id = uid ∧ p0.email = email) →
      ∃ p', (users.map f).find?
          (fun u => u.sessionToken == some token) = some p' ∧
        p'.sessionToken = some token ∧ p'.email = email := by
  intro users
  induction users with
  | nil => intro _ _ hex; rcases hex with ⟨p0, hp0, _⟩; cases hp0
  | cons x t ih =>
    intro hpw hfresh hex
    by_cases hx : x.id = uid
    · refine ⟨f x, ?_, (h2 x hx).1, ?_⟩
      · show ((f x) :: t.map f).find? _ = _
        apply List.find?_cons_of_pos
        simp [(h2 x hx).1]
      · rcases hex with ⟨p0, hp0mem, hp0id, hp0email⟩
        rcases List.mem_cons.mp hp0mem with heq | hp0t
        · rw [(h2 x hx).2, ← heq]
          exact hp0email
        · exact absurd (hx.trans hp0id.symm)
            ((List.pairwise_cons.mp hpw).1 p0 hp0t)
    · have hfx : f x = x := h1 x hx
      rcases hex with ⟨p0, hp0mem, hp0id, hp0email⟩
      rcases List.mem_cons.mp hp0mem with heq | hp0t
      · exact absurd (heq ▸ hp0id) hx
      · have := ih (List.pairwise_cons.mp hpw).2
          (fun u hu => hfresh u (List.mem_cons_of_mem x hu))
          ⟨p0, hp0t, hp0id, hp0email⟩
        rcases this with ⟨p', hfind, htk, hem⟩
        refine ⟨p', ?_, htk, hem⟩
        show ((f x) :: t.map f).find? _ = _
        rw [hfx]
        rw [List.find?_cons_of_neg, hfind]
        simp [hfresh x (List.mem_cons_self x t)]

/-- After a successful allocation run of the raw-SQL login, the minted
token is the one returned, and looking the token up resolves to the
caller's (updated) record. -/
theorem sqlAllocate_token_roundtrip
    (token : String) (now : Nat) (shuffle : List Cluster → List Cluster)
    (pick : List DemoUser → Option DemoUser) (email : String)
    (user : WorkshopUser) (s s' : Store) (t cn cu un pw : String)
    (hmem : user ∈ s.workshopUsers) (hemail : user.email = email)
    (huniq : s.workshopUsers.Pairwise (fun a b => a.id ≠ b.id))
    (hfresh : ∀ u ∈ s.workshopUsers, u.sessionToken ≠ some token)
    (hrun : sqlAllocate token now shuffle pick user s =
      (.success t cn cu un pw, s')) :
    t = token ∧ ∃ p', findUserByToken s' token = some p' ∧
      p'.sessionToken = some token ∧ p'.email = email := by
  unfold sqlAllocate at hrun
  by_cases hemp : (availableClusters s).isEmpty
  · rw [if_pos hemp] at hrun
    simp at hrun
  · rw [if_neg hemp] at hrun
    rcases sqlTryClusters_users_shape user.email user.id token now pick
        (shuffle (availableClusters s)) s with
      ⟨hex1, _⟩ | ⟨cn', cu', un', pw', cid, did, hsucc2, husers⟩
    · rw [hrun] at hex1
      simp at hex1
    · rw [hrun] at hsucc2 husers
      simp only [Prod.fst] at hsucc2
      have ht : token = t := (LoginResponse.success.injEq _ _ _ _ _ _ _ _ _ _
        |>.mp hsucc2.symm).1
      refine ⟨ht.symm, ?_⟩
      show ∃ p', s'.workshopUsers.find?
          (fun u => u.sessionToken == some token) = some p' ∧
        p'.sessionToken = some token ∧ p'.email = email
      rw [husers]
      exact find_token_in_mapped user.id email token _
        (fun u hu => by simp [hu])
        (fun u hu => by simp [hu])
        s.workshopUsers huniq hfresh ⟨user, hmem, rfl, hemail⟩

/-- C10: whenever a raw-SQL login succeeds — through re-login or a fresh
allocation — the token in the response body is exactly the minted token
persisted on the caller's record, and an immediately following
authentication by that token resolves to a participant carrying that token
and the login email. -/
theorem sql_login_token_roundtrip
    (compare : String → String → Bool) (hash : String → String)
    (token : String) (now : Nat) (shuffle : List Cluster → List Cluster)
    (pick : List DemoUser → Option DemoUser)
    (email password : String) (s s' : Store) (resp : LoginResponse)
    (t cn cu un pw : String)
    (huniq : s.workshopUsers.Pairwise (fun a b => a.id ≠ b.id))
    (hfresh : ∀ u ∈ s.workshopUsers, u.sessionToken ≠ some token)
    (hrun : sqlLogin compare hash token now shuffle pick email password s =
      (resp, s'))
    (hsucc : resp = .success t cn cu un pw) :
    t = token ∧ ∃ p', findUserByToken s' token = some p' ∧
      p'.sessionToken = some token ∧ p'.email = email := by
  rw [hsucc] at hrun
  by_cases hval1 : email = "" ∨ password = ""
  · simp [sqlLogin, hval1] at hrun
  · by_cases hval2 : password.length < 4
    · simp [sqlLogin, hval1, hval2] at hrun
    · rcases hfind : findUserByEmail s email with _ | p
      · have hrun' : sqlAllocate token now shuffle pick
            (insertUser s email (hash password)).1
            (insertUser s email (hash password)).2 =
            (.success t cn cu un pw, s') := by
          simpa [sqlLogin, hval1, hval2, hfind] using hrun
        refine sqlAllocate_token_roundtrip token now shuffle pick email
          _ _ s' t cn cu un pw ?_ rfl ?_ ?_ hrun'
        · exact List.mem_append_right _ (List.mem_singleton_self _)
        · refine List.pairwise_append.mpr ⟨huniq, List.pairwise_singleton _ _,
            ?_⟩
          intro a ha b hb
          rw [List.mem_singleton.mp hb]
          exact Nat.ne_of_lt (id_lt_nextUserId s a ha)
        · intro u hu
          rcases List.mem_append.mp hu with h | h
          · exact hfresh u h
          · rw [List.mem_singleton.mp h]
            simp
      · have hpmem : p ∈ s.workshopUsers := List.mem_of_find?_eq_some hfind
        have hpemail : p.email = email := by
          simpa using List.find?_some hfind
        by_cases hcmp : compare password p.passwordHash
        · rcases hcid : p.clusterId with _ | cid
          · have hrun' : sqlAllocate token now shuffle pick p s =
                (.success t cn cu un pw, s') := by
              simpa [sqlLogin, hval1, hval2, hfind, hcmp, hcid] using hrun
            exact sqlAllocate_token_roundtrip token now shuffle pick email
              p s s' t cn cu un pw hpmem hpemail huniq hfresh hrun'
          · rcases hdid : p.demoUserId with _ | did
            · have hrun' : sqlAllocate token now shuffle pick p s =
                  (.success t cn cu un pw, s') := by
                simpa [sqlLogin, hval1, hval2, hfind, hcmp, hcid, hdid]
                  using hrun
              exact sqlAllocate_token_roundtrip token now shuffle pick email
                p s s' t cn cu un pw hpmem hpemail huniq hfresh hrun'
            · rcases hc : findClusterById s cid with _ | c
              · have hrun' : sqlAllocate token now shuffle pick p s =
                    (.success t cn cu un pw, s') := by
                  simpa [sqlLogin, hval1, hval2, hfind, hcmp, hcid, hdid, hc]
                    using hrun
                exact sqlAllocate_token_roundtrip token now shuffle pick
                  email p s s' t cn cu un pw hpmem hpemail huniq hfresh hrun'
              · rcases hd : findDemoUserById s did with _ | d
                · have hrun' : sqlAllocate token now shuffle pick p s =
                      (.success t cn cu un pw, s') := by
                    simpa [sqlLogin, hval1, hval2, hfind, hcmp, hcid, hdid,
                      hc, hd] using hrun
                  exact sqlAllocate_token_roundtrip token now shuffle pick
                    email p s s' t cn cu un pw hpmem hpemail huniq hfresh
                    hrun'
                · by_cases hres : c.isReserved && d.isReserved
                  · have hrel : (LoginResponse.success token c.name c.url
                        d.username d.password,
                        refreshToken s p.id token now) =
                        (LoginResponse.success t cn cu un pw, s') := by
                      simpa [sqlLogin, hval1, hval2, hfind, hcmp, hcid, hdid,
                        hc, hd, hres] using hrun
                    have ht : token = t :=
                      (LoginResponse.success.injEq _ _ _ _ _ _ _ _ _ _ |>.mp
                        (congrArg Prod.fst hrel)).1
                    have hs' : s' = refreshToken s p.id token now :=
                      (congrArg Prod.snd hrel).symm
                    refine ⟨ht.symm, ?_⟩
                    show ∃ p', s'.workshopUsers.find?
                        (fun u => u.sessionToken == some token) = some p' ∧
                      p'.sessionToken = some token ∧ p'.email = email
                    rw [hs']
                    show ∃ p', (s.workshopUsers.map _).find? _ = some p' ∧ _
                    exact find_token_in_mapped p.id email token _
                      (fun u hu => by simp [hu])
                      (fun u hu => by simp [hu])
                      s.workshopUsers huniq hfresh ⟨p, hpmem, rfl, hpemail⟩
                  · have hrun' : sqlAllocate token now shuffle pick p s =
                        (.success t cn cu un pw, s') := by
                      simpa [sqlLogin, hval1, hval2, hfind, hcmp, hcid, hdid,
                        hc, hd, hres] using hrun
                    exact sqlAllocate_token_roundtrip token now shuffle pick
                      email p s s' t cn cu un pw hpmem hpemail huniq hfresh
                      hrun'
        · simp [sqlLogin, hval1, hval2, hfind, hcmp] at hrun

/-- C10 witness: the round-trip theorem applied to a re-login on
`boundStore` with fresh token `t9`. -/
theorem sql_login_token_roundtrip_witness :
    ("t9" : String) = "t9" ∧
    ∃ p', findUserByToken (refreshToken boundStore 1 "t9" 9) "t9" = some p' ∧
      p'.sessionToken = some "t9" ∧ p'.email = "p@x" :=
  sql_login_token_roundtrip (fun _ _ => true) (fun h => h) "t9" 9 id
    List.head? "p@x" "pass" boundStore (refreshToken boundStore 1 "t9" 9)
    (.success "t9" "c1" "https://c1" "demo" "pw") "t9" "c1" "https://c1"
    "demo" "pw" (by decide) (by decide) (by decide) rfl

/-! ### No orphaned reservation in the Prisma login (C2, amended) -/

/-- Shape of a successful Prisma cluster reservation: the update rewrites
every record with the candidate id to the reserved copy of the found
record, whose id is the candidate id. -/
theorem prismaReserveCluster_shape {s : Store} {cid : Nat} {em : String}
    {now : Nat} {uc : Cluster} {s1 : Store}
    (hres : prismaReserveCluster s cid em now = some (uc, s1)) :
    s1.clusters = s.clusters.map (fun x => if x.id == cid then uc else x) ∧
    uc.id = cid ∧ uc.isReserved = true ∧
    s1.demoUsers = s.demoUsers ∧ s1.workshopUsers = s.workshopUsers := by
  unfold prismaReserveCluster at hres
  rcases hfind : s.clusters.find? (fun c => c.id == cid) with _ | c
  · rw [hfind] at hres; cases hres
  · rw [hfind] at hres
    have hid : c.id = cid := by simpa using List.find?_some hfind
    injection hres with h1
    injection h1 with huc hs1
    subst huc
    subst hs1
    exact ⟨by simp [hid], hid, rfl, rfl, rfl⟩

/-- The rollback `releaseCluster` keeps the other tables. -/
theorem prismaReleaseCluster_shape (s : Store) (cid : Nat) :
    (prismaReleaseCluster s cid).clusters = s.clusters.map (fun y =>
      if y.id == cid then
        { y with isReserved := false, reservedBy := none, reservedAt := none }
      else y) ∧
    (prismaReleaseCluster s cid).demoUsers = s.demoUsers ∧
    (prismaReleaseCluster s cid).workshopUsers = s.workshopUsers :=
  ⟨rfl, rfl, rfl⟩

/-- A cluster still reserved after a reserve/rollback pair was already
reserved before the pair ran. -/
theorem reserve_rollback_reserved {s : Store} {cid : Nat} {em : String}
    {now : Nat} {uc : Cluster} {s1 : Store}
    (hres : prismaReserveCluster s cid em now = some (uc, s1)) :
    ∀ x ∈ (prismaReleaseCluster s1 cid).clusters, x.isReserved = true →
      ∃ c0 ∈ s.clusters, c0.id = x.id ∧ c0.isReserved = true := by
  obtain ⟨hcl, hucid, _, _, _⟩ := prismaReserveCluster_shape hres
  intro x hx hres'
  rw [(prismaReleaseCluster_shape s1 cid).1, hcl, List.map_map] at hx
  rcases List.mem_map.mp hx with ⟨c0, hc0, hc0x⟩
  by_cases hc0id : c0.id = cid
  · exfalso
    simp only [Function.comp, hc0id, beq_self_eq_true, if_true] at hc0x
    rw [if_pos (by simp [hucid])] at hc0x
    rw [← hc0x] at hres'
    simp at hres'
  · simp only [Function.comp] at hc0x
    rw [if_neg (by simp [hc0id]), if_neg (by simp [hc0id])] at hc0x
    exact ⟨c0, hc0, by rw [hc0x], by rw [hc0x]; exact hres'⟩

/-- Shape of a successful Prisma demo-user reservation: clusters and
workshop users untouched. -/
theorem prismaReserveDemoUser_frame {s : Store} {did : Nat} {em : String}
    {now : Nat} {ud : DemoUser} {s2 : Store}
    (hres : prismaReserveDemoUser s did em now = some (ud, s2)) :
    s2.clusters = s.clusters ∧ s2.workshopUsers = s.workshopUsers := by
  unfold prismaReserveDemoUser at hres
  rcases hfind : s.demoUsers.find? (fun d => d.id == did) with _ | d
  · rw [hfind] at hres; cases hres
  · rw [hfind] at hres
    injection hres with h1
    injection h1 with _ hs2
    subst hs2
    exact ⟨rfl, rfl⟩

/-- A successful Prisma participant update is the binding map. -/
theorem prismaBindUser_shape {s : Store} {uid cid did : Nat} {tk : String}
    {now : Nat} {s3 : Store}
    (hbind : prismaBindUser s uid cid did tk now = some s3) :
    s3 = bindUser s uid cid did tk now := by
  unfold prismaBindUser at hbind
  rcases hfind : s.workshopUsers.find? (fun u => u.id == uid) with _ | u
  · rw [hfind] at hbind; cases hbind
  · rw [hfind] at hbind
    injection hbind with h
    exact h.symm

/-- One unfolding step of the Prisma reservation loop. -/
theorem prismaTryClusters_cons (em : String) (uid : Nat) (tk : String)
    (now : Nat) (pick : List DemoUser → Option DemoUser)
    (c : Cluster) (rest : List Cluster) (s : Store) :
    prismaTryClusters em uid tk now pick (c :: rest) s =
      match prismaReserveCluster s c.id em now with
      | none => prismaTryClusters em uid tk now pick rest s
      | some (uc, s1) =>
        match pick (availableDemoUsers s1) with
        | none => prismaTryClusters em uid tk now pick rest
            (prismaReleaseCluster s1 c.id)
        | some d =>
          match prismaReserveDemoUser s1 d.id em now with
          | none => prismaTryClusters em uid tk now pick rest
              (prismaReleaseCluster s1 c.id)
          | some (ud, s2) =>
            match prismaBindUser s2 uid c.id d.id tk now with
            | none => prismaTryClusters em uid tk now pick rest s2
            | some s3 =>
              (.success tk uc.name uc.url ud.username ud.password, s3) :=
  rfl

/-- The Prisma reservation loop never leaves a newly reserved cluster
unreferenced: every cluster reserved afterwards was reserved before the
loop, or is referenced by a workshop user of the final store.  The caller
must exist (the login creates or fetches it before the loop). -/
theorem prismaTryClusters_no_orphan (em : String) (uid : Nat) (tk : String)
    (now : Nat) (pick : List DemoUser → Option DemoUser) :
    ∀ (cands : List Cluster) (s : Store),
      (∃ u0 ∈ s.workshopUsers, u0.id = uid) →
      ∀ c' ∈ (prismaTryClusters em uid tk now pick cands s).2.clusters,
        c'.isReserved = true →
        (∃ c0 ∈ s.clusters, c0.id = c'.id ∧ c0.isReserved = true) ∨
        (∃ u ∈ (prismaTryClusters em uid tk now pick cands s).2.workshopUsers,
          u.clusterId = some c'.id) := by
  intro cands
  induction cands with
  | nil =>
    intro s _ c' hc' hres
    exact Or.inl ⟨c', hc', rfl, hres⟩
  | cons c rest ih =>
    intro s hex c' hc' hres
    rcases hr1 : prismaReserveCluster s c.id em now with _ | ⟨uc, s1⟩
    · have hstep : prismaTryClusters em uid tk now pick (c :: rest) s =
          prismaTryClusters em uid tk now pick rest s := by
        simp only [prismaTryClusters_cons, hr1]
      rw [hstep] at hc' ⊢
      exact ih s hex c' hc' hres
    · obtain ⟨hcl1, hucid, hucres, hdem1, husers1⟩ :=
        prismaReserveCluster_shape hr1
      rcases hp : pick (availableDemoUsers s1) with _ | d
      · have hex' : ∃ u0 ∈ (prismaReleaseCluster s1 c.id).workshopUsers,
            u0.id = uid := by
          rw [(prismaReleaseCluster_shape s1 c.id).2.2, husers1]
          exact hex
        have hstep : prismaTryClusters em uid tk now pick (c :: rest) s =
            prismaTryClusters em uid tk now pick rest
              (prismaReleaseCluster s1 c.id) := by
          simp only [prismaTryClusters_cons, hr1, hp]
        rw [hstep] at hc' ⊢
        rcases ih (prismaReleaseCluster s1 c.id) hex' c' hc' hres with
          ⟨c0, hc0, hc0id, hc0res⟩ | href
        · exact Or.inl ((reserve_rollback_reserved hr1 c0 hc0 hc0res).imp
            (fun c1 h => ⟨h.1, h.2.1.trans hc0id, h.2.2⟩))
        · exact Or.inr href
      · rcases hr2 : prismaReserveDemoUser s1 d.id em now with _ | ⟨ud, s2⟩
        · have hex' : ∃ u0 ∈ (prismaReleaseCluster s1 c.id).workshopUsers,
              u0.id = uid := by
            rw [(prismaReleaseCluster_shape s1 c.id).2.2, husers1]
            exact hex
          have hstep : prismaTryClusters em uid tk now pick (c :: rest) s =
              prismaTryClusters em uid tk now pick rest
                (prismaReleaseCluster s1 c.id) := by
            simp only [prismaTryClusters_cons, hr1, hp, hr2]
          rw [hstep] at hc' ⊢
          rcases ih (prismaReleaseCluster s1 c.id) hex' c' hc' hres with
            ⟨c0, hc0, hc0id, hc0res⟩ | href
          · exact Or.inl ((reserve_rollback_reserved hr1 c0 hc0 hc0res).imp
              (fun c1 h => ⟨h.1, h.2.1.trans hc0id, h.2.2⟩))
          · exact Or.inr href
        · obtain ⟨hcl2, husers2⟩ := prismaReserveDemoUser_frame hr2
          rcases hb : prismaBindUser s2 uid c.id d.id tk now with _ | s3
          · exfalso
            rcases hex with ⟨u0, hu0, hu0id⟩
            unfold prismaBindUser at hb
            rcases hbf : s2.workshopUsers.find? (fun u => u.id == uid)
              with _ | _
            · have hall : ∀ u ∈ s2.workshopUsers, ¬(u.id == uid) = true :=
                fun u hu => by
                  have := List.find?_eq_none.mp hbf u hu
                  simpa using this
              have hu0' : u0 ∈ s2.workshopUsers := by
                rw [husers2, husers1]; exact hu0
              exact (hall u0 hu0') (by simp [hu0id])
            · rw [hbf] at hb; cases hb
          · have hstep : prismaTryClusters em uid tk now pick (c :: rest) s =
                (.success tk uc.name uc.url ud.username ud.password, s3) := by
              simp only [prismaTryClusters_cons, hr1, hp, hr2, hb]
            rw [hstep] at hc' ⊢
            have hs3 := prismaBindUser_shape hb
            have hcl3 : s3.clusters = s1.clusters := by
              rw [hs3]; exact hcl2
            rw [hcl3, hcl1] at hc'
            rcases List.mem_map.mp hc' with ⟨c0, hc0, hc0x⟩
            by_cases hc0id : c0.id = c.id
            · right
              obtain ⟨u0, hu0, hu0id⟩ := hex
              have hcid' : c'.id = c.id := by
                rw [← hc0x, if_pos (by simp [hc0id]), hucid]
              have hu0mem : u0 ∈ s2.workshopUsers := by
                rw [husers2, husers1]; exact hu0
              rw [hs3, bindUser_workshopUsers]
              refine ⟨_, List.mem_map.mpr ⟨u0, hu0mem, rfl⟩, ?_⟩
              rw [hcid']
              simp [hu0id]
            · rw [if_neg (by simp [hc0id])] at hc0x
              exact Or.inl ⟨c0, hc0, by rw [hc0x], by rw [hc0x]; exact hres⟩

/-- The Prisma allocation keeps the no-orphan property: its caller exists
in the store. -/
theorem prismaAllocate_no_orphan (token : String) (now : Nat)
    (shuffle : List Cluster → List Cluster)
    (pick : List DemoUser → Option DemoUser)
    (user : WorkshopUser) (s : Store)
    (hex : ∃ u0 ∈ s.workshopUsers, u0.id = user.id) :
    ∀ c' ∈ (prismaAllocate token now shuffle pick user s).2.clusters,
      c'.isReserved = true →
      (∃ c0 ∈ s.clusters, c0.id = c'.id ∧ c0.isReserved = true) ∨
      (∃ u ∈ (prismaAllocate token now shuffle pick user s).2.workshopUsers,
        u.clusterId = some c'.id) := by
  unfold prismaAllocate
  by_cases hemp : (availableClusters s).isEmpty
  · rw [if_pos hemp]
    intro c' hc' hres
    exact Or.inl ⟨c', hc', rfl, hres⟩
  · rw [if_neg hemp]
    exact prismaTryClusters_no_orphan user.email user.id token now pick
      _ s hex

/-- C2 (amended): after any Prisma-variant login, every reserved Cluster
either was already reserved before the call or is referenced by a
Participant of the resulting store — thanks to the explicit rollback, the
login never leaves a freshly reserved cluster with no Participant bound to
it. -/
theorem prisma_login_no_orphan_reservation
    (compare : String → String → Bool) (hash : String → String)
    (token : String) (now : Nat) (shuffle : List Cluster → List Cluster)
    (pick : List DemoUser → Option DemoUser)
    (email password : String) (s : Store) :
    ∀ c' ∈ (prismaLogin compare hash token now shuffle pick
        email password s).2.clusters,
      c'.isReserved = true →
      (∃ c0 ∈ s.clusters, c0.id = c'.id ∧ c0.isReserved = true) ∨
      (∃ u ∈ (prismaLogin compare hash token now shuffle pick
          email password s).2.workshopUsers,
        u.clusterId = some c'.id) := by
  by_cases hval1 : email = "" ∨ password = ""
  · have hstep : prismaLogin compare hash token now shuffle pick
        email password s = (.invalidInput, s) := by
      simp [prismaLogin, hval1]
    rw [hstep]
    intro c' hc' hres
    exact Or.inl ⟨c', hc', rfl, hres⟩
  · by_cases hval2 : password.length < 4
    · have hstep : prismaLogin compare hash token now shuffle pick
          email password s = (.invalidInput, s) := by
        simp [prismaLogin, hval1, hval2]
      rw [hstep]
      intro c' hc' hres
      exact Or.inl ⟨c', hc', rfl, hres⟩
    · rcases hfind : findUserByEmail s email with _ | p
      · have hstep : prismaLogin compare hash token now shuffle pick
            email password s =
            prismaAllocate token now shuffle pick
              (insertUser s email (hash password)).1
              (insertUser s email (hash password)).2 := by
          simp [prismaLogin, hval1, hval2, hfind]
        rw [hstep]
        exact prismaAllocate_no_orphan token now shuffle pick _ _
          ⟨(insertUser s email (hash password)).1,
           List.mem_append_right _ (List.mem_singleton_self _), rfl⟩
      · by_cases hcmp : compare password p.passwordHash
        · have hpmem : p ∈ s.workshopUsers :=
            List.mem_of_find?_eq_some hfind
          have hex : ∃ u0 ∈ s.workshopUsers, u0.id = p.id := ⟨p, hpmem, rfl⟩
          rcases hcid : p.clusterId with _ | cid
          · have hstep : prismaLogin compare hash token now shuffle pick
                email password s = prismaAllocate token now shuffle pick p s := by
              simp [prismaLogin, hval1, hval2, hfind, hcmp, hcid]
            rw [hstep]
            exact prismaAllocate_no_orphan token now shuffle pick p s hex
          · rcases hdid : p.demoUserId with _ | did
            · have hstep : prismaLogin compare hash token now shuffle pick
                  email password s =
                  prismaAllocate token now shuffle pick p s := by
                simp [prismaLogin, hval1, hval2, hfind, hcmp, hcid, hdid]
              rw [hstep]
              exact prismaAllocate_no_orphan token now shuffle pick p s hex
            · rcases hc : findClusterById s cid with _ | c
              · have hstep : prismaLogin compare hash token now shuffle pick
                    email password s =
                    prismaAllocate token now shuffle pick p s := by
                  simp [prismaLogin, hval1, hval2, hfind, hcmp, hcid, hdid,
                    hc]
                rw [hstep]
                exact prismaAllocate_no_orphan token now shuffle pick p s hex
              · rcases hd : findDemoUserById s did with _ | d
                · have hstep : prismaLogin compare hash token now shuffle
                      pick email password s =
                      prismaAllocate token now shuffle pick p s := by
                    simp [prismaLogin, hval1, hval2, hfind, hcmp, hcid, hdid,
                      hc, hd]
                  rw [hstep]
                  exact prismaAllocate_no_orphan token now shuffle pick p s
                    hex
                · by_cases hres : c.isReserved && d.isReserved
                  · have hstep : prismaLogin compare hash token now shuffle
                        pick email password s =
                        (.success token c.name c.url d.username d.password,
                         refreshToken s p.id token now) := by
                      simp [prismaLogin, hval1, hval2, hfind, hcmp, hcid,
                        hdid, hc, hd, hres]
                    rw [hstep]
                    intro c' hc' hresv
                    exact Or.inl ⟨c', hc', rfl, hresv⟩
                  · have hstep : prismaLogin compare hash token now shuffle
                        pick email password s =
                        prismaAllocate token now shuffle pick p s := by
                      simp [prismaLogin, hval1, hval2, hfind, hcmp, hcid,
                        hdid, hc, hd, hres]
                    rw [hstep]
                    exact prismaAllocate_no_orphan token now shuffle pick p
                      s hex
        · have hstep : prismaLogin compare hash token now shuffle pick
              email password s = (.invalidCredentials, s) := by
            simp [prismaLogin, hval1, hval2, hfind, hcmp]
          rw [hstep]
          intro c' hc' hres
          exact Or.inl ⟨c', hc', rfl, hres⟩

/-! ### Bulk loader lemmas (C8, amended) -/

/-- One unfolding step of the user-cluster loader. -/
theorem loadUserClustersGo_cons (e : ClusterEntry) (rest : List ClusterEntry)
    (s : Store) (a k : Nat) :
    loadUserClustersGo (e :: rest) s a k =
      match e.cluster_url with
      | none => loadUserClustersGo rest s a (k + 1)
      | some url =>
        let nm := match e.username with
          | some un => "cluster-" ++ un
          | none => "cluster-" ++ toString (a + 1)
        if s.clusters.any (fun c => c.name == nm) then
          loadUserClustersGo rest s a (k + 1)
        else loadUserClustersGo rest (loaderAddCluster s nm url) (a + 1) k :=
  rfl

/-- One unfolding step of the demo-user loader. -/
theorem loadDemoUsersGo_cons (e : DemoEntry) (rest : List DemoEntry)
    (s : Store) (a k : Nat) :
    loadDemoUsersGo (e :: rest) s a k =
      match e.username, e.password with
      | some un, some pw =>
        if s.demoUsers.any (fun d => d.username == un) then
          loadDemoUsersGo rest s a (k + 1)
        else loadDemoUsersGo rest (loaderAddDemoUser s un pw) (a + 1) k
      | _, _ => loadDemoUsersGo rest s a (k + 1) :=
  rfl

/-- The user-cluster loader only appends clusters and keeps the other
tables. -/
theorem loadUserClustersGo_frame :
    ∀ (es : List ClusterEntry) (s : Store) (a k : Nat),
      ∃ nc, (loadUserClustersGo es s a k).1.clusters = s.clusters ++ nc ∧
        (loadUserClustersGo es s a k).1.demoUsers = s.demoUsers ∧
        (loadUserClustersGo es s a k).1.workshopUsers = s.workshopUsers ∧
        (loadUserClustersGo es s a k).1.sharedClusters = s.sharedClusters := by
  intro es
  induction es with
  | nil => intro s a k; exact ⟨[], by simp [loadUserClustersGo], rfl, rfl, rfl⟩
  | cons e rest ih =>
    intro s a k
    rcases hurl : e.cluster_url with _ | url
    · have hstep : loadUserClustersGo (e :: rest) s a k =
          loadUserClustersGo rest s a (k + 1) := by
        simp only [loadUserClustersGo_cons, hurl]
      rw [hstep]
      exact ih s a (k + 1)
    · rcases husr : e.username with _ | un
      · by_cases hany : s.clusters.any
            (fun c => c.name == "cluster-" ++ toString (a + 1)) = true
        · have hstep : loadUserClustersGo (e :: rest) s a k =
              loadUserClustersGo rest s a (k + 1) := by
            simp only [loadUserClustersGo_cons, hurl, husr]
            rw [if_pos hany]
          rw [hstep]
          exact ih s a (k + 1)
        · have hstep : loadUserClustersGo (e :: rest) s a k =
              loadUserClustersGo rest
                (loaderAddCluster s ("cluster-" ++ toString (a + 1)) url)
                (a + 1) k := by
            simp only [loadUserClustersGo_cons, hurl, husr]
            rw [if_neg hany]
          rw [hstep]
          obtain ⟨nc, h1, h2, h3, h4⟩ := ih
            (loaderAddCluster s ("cluster-" ++ toString (a + 1)) url)
            (a + 1) k
          refine ⟨⟨(s.clusters.map (fun c => c.id)).foldr max 0 + 1,
            "cluster-" ++ toString (a + 1), url, "", "", false, none,
            none⟩ :: nc, ?_, h2, h3, h4⟩
          rw [h1]
          simp [loaderAddCluster]
      · by_cases hany : s.clusters.any
            (fun c => c.name == "cluster-" ++ un) = true
        · have hstep : loadUserClustersGo (e :: rest) s a k =
              loadUserClustersGo rest s a (k + 1) := by
            simp only [loadUserClustersGo_cons, hurl, husr]
            rw [if_pos hany]
          rw [hstep]
          exact ih s a (k + 1)
        · have hstep : loadUserClustersGo (e :: rest) s a k =
              loadUserClustersGo rest
                (loaderAddCluster s ("cluster-" ++ un) url) (a + 1) k := by
            simp only [loadUserClustersGo_cons, hurl, husr]
            rw [if_neg hany]
          rw [hstep]
          obtain ⟨nc, h1, h2, h3, h4⟩ := ih
            (loaderAddCluster s ("cluster-" ++ un) url) (a + 1) k
          refine ⟨⟨(s.clusters.map (fun c => c.id)).foldr max 0 + 1,
            "cluster-" ++ un, url, "", "", false, none, none⟩ :: nc,
            ?_, h2, h3, h4⟩
          rw [h1]
          simp [loaderAddCluster]

/-- The demo-user loader only appends demo users and keeps the other
tables. -/
theorem loadDemoUsersGo_frame :
    ∀ (es : List DemoEntry) (s : Store) (a k : Nat),
      ∃ nd, (loadDemoUsersGo es s a k).1.demoUsers = s.demoUsers ++ nd ∧
        (loadDemoUsersGo es s a k).1.clusters = s.clusters ∧
        (loadDemoUsersGo es s a k).1.workshopUsers = s.workshopUsers ∧
        (loadDemoUsersGo es s a k).1.sharedClusters = s.sharedClusters := by
  intro es
  induction es with
  | nil => intro s a k; exact ⟨[], by simp [loadDemoUsersGo], rfl, rfl, rfl⟩
  | cons e rest ih =>
    intro s a k
    rcases husr : e.username with _ | un
    · have hstep : loadDemoUsersGo (e :: rest) s a k =
          loadDemoUsersGo rest s a (k + 1) := by
        simp only [loadDemoUsersGo_cons, husr]
      rw [hstep]
      exact ih s a (k + 1)
    · rcases hpw : e.password with _ | pw
      · have hstep : loadDemoUsersGo (e :: rest) s a k =
            loadDemoUsersGo rest s a (k + 1) := by
          simp only [loadDemoUsersGo_cons, husr, hpw]
        rw [hstep]
        exact ih s a (k + 1)
      · by_cases hany : s.demoUsers.any (fun d => d.username == un) = true
        · have hstep : loadDemoUsersGo (e :: rest) s a k =
              loadDemoUsersGo rest s a (k + 1) := by
            simp only [loadDemoUsersGo_cons, husr, hpw]
            rw [if_pos hany]
          rw [hstep]
          exact ih s a (k + 1)
        · have hstep : loadDemoUsersGo (e :: rest) s a k =
              loadDemoUsersGo rest (loaderAddDemoUser s un pw) (a + 1) k := by
            simp only [loadDemoUsersGo_cons, husr, hpw]
            rw [if_neg hany]
          rw [hstep]
          obtain ⟨nd, h1, h2, h3, h4⟩ := ih (loaderAddDemoUser s un pw)
            (a + 1) k
          refine ⟨⟨(s.demoUsers.map (fun d => d.id)).foldr max 0 + 1,
            none, un, pw, false, none, none⟩ :: nd, ?_, h2, h3, h4⟩
          rw [h1]
          simp [loaderAddDemoUser]

/-- A cluster name present before the user-cluster loader runs is still
present afterwards. -/
theorem loadUserClustersGo_name_mono (es : List ClusterEntry) (s : Store)
    (a k : Nat) (nm : String)
    (h : s.clusters.any (fun c => c.name == nm) = true) :
    (loadUserClustersGo es s a k).1.clusters.any
      (fun c => c.name == nm) = true := by
  obtain ⟨nc, h1, _, _, _⟩ := loadUserClustersGo_frame es s a k
  rw [h1, List.any_append, h]
  rfl

/-- A demo username present before the demo-user loader runs is still
present afterwards. -/
theorem loadDemoUsersGo_name_mono (es : List DemoEntry) (s : Store)
    (a k : Nat) (un : String)
    (h : s.demoUsers.any (fun d => d.username == un) = true) :
    (loadDemoUsersGo es s a k).1.demoUsers.any
      (fun d => d.username == un) = true := by
  obtain ⟨nd, h1, _, _, _⟩ := loadDemoUsersGo_frame es s a k
  rw [h1, List.any_append, h]
  rfl

/-- When every user-cluster entry with a URL has a username whose derived
name is already present, the loader skips everything: the store is
unchanged, nothing is added, every entry is counted as skipped. -/
theorem loadUserClustersGo_skip_all :
    ∀ (es : List ClusterEntry) (s : Store) (a k : Nat),
      (∀ e ∈ es, ∀ url, e.cluster_url = some url →
        ∃ un, e.username = some un ∧
          s.clusters.any (fun c => c.name == "cluster-" ++ un) = true) →
      loadUserClustersGo es s a k = (s, a, k + es.length) := by
  intro es
  induction es with
  | nil => intro s a k _; rfl
  | cons e rest ih =>
    intro s a k hall
    have hrest : ∀ e' ∈ rest, ∀ url', e'.cluster_url = some url' →
        ∃ un, e'.username = some un ∧
          s.clusters.any (fun c => c.name == "cluster-" ++ un) = true :=
      fun e' he' url' hu' => hall e' (List.mem_cons_of_mem _ he') url' hu'
    have harith : k + 1 + rest.length = k + (e :: rest).length := by
      simp only [List.length_cons]
      omega
    rcases hurl : e.cluster_url with _ | url
    · have hstep : loadUserClustersGo (e :: rest) s a k =
          loadUserClustersGo rest s a (k + 1) := by
        simp only [loadUserClustersGo_cons, hurl]
      rw [hstep, ih s a (k + 1) hrest, harith]
    · obtain ⟨un, husr, hany⟩ := hall e (List.mem_cons_self e rest) url hurl
      have hstep : loadUserClustersGo (e :: rest) s a k =
          loadUserClustersGo rest s a (k + 1) := by
        simp only [loadUserClustersGo_cons, hurl, husr]
        rw [if_pos hany]
      rw [hstep, ih s a (k + 1) hrest, harith]

/-- When every valid demo-user entry's username is already present, the
demo loader skips everything. -/
theorem loadDemoUsersGo_skip_all :
    ∀ (es : List DemoEntry) (s : Store) (a k : Nat),
      (∀ e ∈ es, ∀ un pw, e.username = some un → e.password = some pw →
        s.demoUsers.any (fun d => d.username == un) = true) →
      loadDemoUsersGo es s a k = (s, a, k + es.length) := by
  intro es
  induction es with
  | nil => intro s a k _; rfl
  | cons e rest ih =>
    intro s a k hall
    have hrest : ∀ e' ∈ rest, ∀ un pw, e'.username = some un →
        e'.password = some pw →
        s.demoUsers.any (fun d => d.username == un) = true :=
      fun e' he' un pw hu hp => hall e' (List.mem_cons_of_mem _ he') un pw hu hp
    have harith : k + 1 + rest.length = k + (e :: rest).length := by
      simp only [List.length_cons]
      omega
    rcases husr : e.username with _ | un
    · have hstep : loadDemoUsersGo (e :: rest) s a k =
          loadDemoUsersGo rest s a (k + 1) := by
        simp only [loadDemoUsersGo_cons, husr]
      rw [hstep, ih s a (k + 1) hrest, harith]
    · rcases hpw : e.password with _ | pw
      · have hstep : loadDemoUsersGo (e :: rest) s a k =
            loadDemoUsersGo rest s a (k + 1) := by
          simp only [loadDemoUsersGo_cons, husr, hpw]
        rw [hstep, ih s a (k + 1) hrest, harith]
      · have hany := hall e (List.mem_cons_self e rest) un pw husr hpw
        have hstep : loadDemoUsersGo (e :: rest) s a k =
            loadDemoUsersGo rest s a (k + 1) := by
          simp only [loadDemoUsersGo_cons, husr, hpw]
          rw [if_pos hany]
        rw [hstep, ih s a (k + 1) hrest, harith]

/-- After the user-cluster loader runs, the derived name of every entry
carrying a URL and a username is present. -/
theorem loadUserClustersGo_names_present :
    ∀ (es : List ClusterEntry) (s : Store) (a k : Nat),
      ∀ e ∈ es, ∀ url un, e.cluster_url = some url → e.username = some un →
        (loadUserClustersGo es s a k).1.clusters.any
          (fun c => c.name == "cluster-" ++ un) = true := by
  intro es
  induction es with
  | nil => intro s a k e he; cases he
  | cons e0 rest ih =>
    intro s a k e he url un hurl husr
    rcases List.mem_cons.mp he with heq | hrest
    · subst heq
      have hstep0 : loadUserClustersGo (e :: rest) s a k =
          if s.clusters.any (fun c => c.name == "cluster-" ++ un) then
            loadUserClustersGo rest s a (k + 1)
          else loadUserClustersGo rest
            (loaderAddCluster s ("cluster-" ++ un) url) (a + 1) k := by
        simp only [loadUserClustersGo_cons, hurl, husr]
      by_cases hany : s.clusters.any
          (fun c => c.name == "cluster-" ++ un) = true
      · rw [hstep0, if_pos hany]
        exact loadUserClustersGo_name_mono rest s a (k + 1) _ hany
      · rw [hstep0, if_neg hany]
        apply loadUserClustersGo_name_mono
        simp [loaderAddCluster]
    · rcases hurl0 : e0.cluster_url with _ | url0
      · have hstep : loadUserClustersGo (e0 :: rest) s a k =
            loadUserClustersGo rest s a (k + 1) := by
          simp only [loadUserClustersGo_cons, hurl0]
        rw [hstep]
        exact ih s a (k + 1) e hrest url un hurl husr
      · rcases husr0 : e0.username with _ | un0
        · by_cases hany : s.clusters.any
              (fun c => c.name == "cluster-" ++ toString (a + 1)) = true
          · have hstep : loadUserClustersGo (e0 :: rest) s a k =
                loadUserClustersGo rest s a (k + 1) := by
              simp only [loadUserClustersGo_cons, hurl0, husr0]
              rw [if_pos hany]
            rw [hstep]
            exact ih s a (k + 1) e hrest url un hurl husr
          · have hstep : loadUserClustersGo (e0 :: rest) s a k =
                loadUserClustersGo rest
                  (loaderAddCluster s ("cluster-" ++ toString (a + 1)) url0)
                  (a + 1) k := by
              simp only [loadUserClustersGo_cons, hurl0, husr0]
              rw [if_neg hany]
            rw [hstep]
            exact ih _ (a + 1) k e hrest url un hurl husr
        · by_cases hany : s.clusters.any
              (fun c => c.name == "cluster-" ++ un0) = true
          · have hstep : loadUserClustersGo (e0 :: rest) s a k =
                loadUserClustersGo rest s a (k + 1) := by
              simp only [loadUserClustersGo_cons, hurl0, husr0]
              rw [if_pos hany]
            rw [hstep]
            exact ih s a (k + 1) e hrest url un hurl husr
          · have hstep : loadUserClustersGo (e0 :: rest) s a k =
                loadUserClustersGo rest
                  (loaderAddCluster s ("cluster-" ++ un0) url0) (a + 1) k := by
              simp only [loadUserClustersGo_cons, hurl0, husr0]
              rw [if_neg hany]
            rw [hstep]
            exact ih _ (a + 1) k e hrest url un hurl husr

/-- After the demo-user loader runs, the username of every valid entry is
present. -/
theorem loadDemoUsersGo_names_present :
    ∀ (es : List DemoEntry) (s : Store) (a k : Nat),
      ∀ e ∈ es, ∀ un pw, e.username = some un → e.password = some pw →
        (loadDemoUsersGo es s a k).1.demoUsers.any
          (fun d => d.username == un) = true := by
  intro es
  induction es with
  | nil => intro s a k e he; cases he
  | cons e0 rest ih =>
    intro s a k e he un pw husr hpw
    rcases List.mem_cons.mp he with heq | hrest
    · subst heq
      have hstep0 : loadDemoUsersGo (e :: rest) s a k =
          if s.demoUsers.any (fun d => d.username == un) then
            loadDemoUsersGo rest s a (k + 1)
          else loadDemoUsersGo rest (loaderAddDemoUser s un pw)
            (a + 1) k := by
        simp only [loadDemoUsersGo_cons, husr, hpw]
      by_cases hany : s.demoUsers.any (fun d => d.username == un) = true
      · rw [hstep0, if_pos hany]
        exact loadDemoUsersGo_name_mono rest s a (k + 1) _ hany
      · rw [hstep0, if_neg hany]
        apply loadDemoUsersGo_name_mono
        simp [loaderAddDemoUser]
    · rcases husr0 : e0.username with _ | un0
      · have hstep : loadDemoUsersGo (e0 :: rest) s a k =
            loadDemoUsersGo rest s a (k + 1) := by
          simp only [loadDemoUsersGo_cons, husr0]
        rw [hstep]
        exact ih s a (k + 1) e hrest un pw husr hpw
      · rcases hpw0 : e0.password with _ | pw0
        · have hstep : loadDemoUsersGo (e0 :: rest) s a k =
              loadDemoUsersGo rest s a (k + 1) := by
            simp only [loadDemoUsersGo_cons, husr0, hpw0]
          rw [hstep]
          exact ih s a (k + 1) e hrest un pw husr hpw
        · by_cases hany : s.demoUsers.any (fun d => d.username == un0) = true
          · have hstep : loadDemoUsersGo (e0 :: rest) s a k =
                loadDemoUsersGo rest s a (k + 1) := by
              simp only [loadDemoUsersGo_cons, husr0, hpw0]
              rw [if_pos hany]
            rw [hstep]
            exact ih s a (k + 1) e hrest un pw husr hpw
          · have hstep : loadDemoUsersGo (e0 :: rest) s a k =
                loadDemoUsersGo rest (loaderAddDemoUser s un0 pw0)
                  (a + 1) k := by
              simp only [loadDemoUsersGo_cons, husr0, hpw0]
              rw [if_neg hany]
            rw [hstep]
            exact ih _ (a + 1) k e hrest un pw husr hpw

/-- The shared-cluster phase of `load-yaml`. -/
def sharedLoadStep (o : Option SharedEntry) (s : Store) :
    Option (Store × Nat × Nat) :=
  match o with
  | none => some (s, 0, 0)
  | some e =>
    match loadSharedClusterData e s with
    | none => none
    | some (s', a) => some (s', a, 1 - a)

/-- The user-cluster phase of `load-yaml`. -/
def clusterLoadStep (o : Option (List ClusterEntry)) (s : Store) :
    Store × Nat × Nat :=
  match o with
  | none => (s, 0, 0)
  | some es => loadUserClustersGo es s 0 0

/-- The demo-user phase of `load-yaml`. -/
def demoLoadStep (o : Option (List DemoEntry)) (s : Store) :
    Store × Nat × Nat :=
  match o with
  | none => (s, 0, 0)
  | some es => loadDemoUsersGo es s 0 0

/-- `loadFromYaml` is the composition of the three phases. -/
theorem loadFromYaml_decomp (d : YamlData) (s : Store) :
    loadFromYaml d s =
      match sharedLoadStep d.shared_cluster s with
      | none => none
      | some (s1, sa, sk) =>
        some ((demoLoadStep d.demo_users
                (clusterLoadStep d.user_clusters s1).1).1,
          ⟨(clusterLoadStep d.user_clusters s1).2.1,
           (clusterLoadStep d.user_clusters s1).2.2,
           (demoLoadStep d.demo_users
             (clusterLoadStep d.user_clusters s1).1).2.1,
           (demoLoadStep d.demo_users
             (clusterLoadStep d.user_clusters s1).1).2.2, sa, sk⟩) := by
  rcases d with ⟨osh, ouc, odu⟩
  rcases osh with _ | e
  · rfl
  · show loadFromYaml ⟨some e, ouc, odu⟩ s = _
    unfold loadFromYaml sharedLoadStep
    rcases hld : loadSharedClusterData e s with _ | p
    · rfl
    · rcases p with ⟨s', a⟩
      rfl

/-- Successful shared-cluster loading appends at most one record, keeps
the other tables, requires a URL, and leaves the name present. -/
theorem loadSharedClusterData_shape {e : SharedEntry} {s s' : Store}
    {n : Nat} (h : loadSharedClusterData e s = some (s', n)) :
    (∃ url, e.cluster_url = some url) ∧
    (∃ ns, s'.sharedClusters = s.sharedClusters ++ ns) ∧
    s'.clusters = s.clusters ∧ s'.demoUsers = s.demoUsers ∧
    s'.workshopUsers = s.workshopUsers ∧
    s'.sharedClusters.any
      (fun c => c.name == e.name.getD "shared-cluster") = true := by
  unfold loadSharedClusterData at h
  rcases hurl : e.cluster_url with _ | url
  · rw [hurl] at h; cases h
  · simp only [hurl] at h
    by_cases hany : s.sharedClusters.any
        (fun c => c.name == e.name.getD "shared-cluster") = true
    · rw [if_pos hany] at h
      injection h with h1
      injection h1 with h2 _
      subst h2
      exact ⟨⟨url, rfl⟩, ⟨[], by simp⟩, rfl, rfl, rfl, hany⟩
    · rw [if_neg hany] at h
      injection h with h1
      injection h1 with h2 _
      subst h2
      refine ⟨⟨url, rfl⟩, ⟨_, rfl⟩, rfl, rfl, rfl, ?_⟩
      simp [loaderAddShared]

/-- When the shared name is already present, shared-cluster loading skips. -/
theorem loadSharedClusterData_skip {e : SharedEntry} {s : Store}
    {url : String} (hurl : e.cluster_url = some url)
    (hpres : s.sharedClusters.any
      (fun c => c.name == e.name.getD "shared-cluster") = true) :
    loadSharedClusterData e s = some (s, 0) := by
  unfold loadSharedClusterData
  simp only [hurl]
  rw [if_pos hpres]

/-- Shape of a successful shared phase. -/
theorem sharedLoadStep_shape {o : Option SharedEntry} {s sA : Store}
    {sa sk : Nat} (h : sharedLoadStep o s = some (sA, sa, sk)) :
    (∃ ns, sA.sharedClusters = s.sharedClusters ++ ns) ∧
    sA.clusters = s.clusters ∧ sA.demoUsers = s.demoUsers ∧
    sA.workshopUsers = s.workshopUsers ∧
    (∀ e, o = some e → (∃ url, e.cluster_url = some url) ∧
      sA.sharedClusters.any
        (fun c => c.name == e.name.getD "shared-cluster") = true) := by
  rcases o with _ | e
  · unfold sharedLoadStep at h
    injection h with h1
    injection h1 with h2 _
    subst h2
    exact ⟨⟨[], by simp⟩, rfl, rfl, rfl, fun e he => by cases he⟩
  · unfold sharedLoadStep at h
    rcases hld : loadSharedClusterData e s with _ | ⟨s', a⟩
    · simp [hld] at h
    · simp only [hld] at h
      injection h with h1
      injection h1 with h2 _
      subst h2
      obtain ⟨hurl, hns, hcl, hdm, hwu, hpres⟩ :=
        loadSharedClusterData_shape hld
      exact ⟨hns, hcl, hdm, hwu, fun e' he' => by
        injection he' with he''
        subst he''
        exact ⟨hurl, hpres⟩⟩

/-- The shared phase skips when the name is already present. -/
theorem sharedLoadStep_skip {o : Option SharedEntry} {s : Store}
    (h : ∀ e, o = some e → (∃ url, e.cluster_url = some url) ∧
      s.sharedClusters.any
        (fun c => c.name == e.name.getD "shared-cluster") = true) :
    ∃ sk, sharedLoadStep o s = some (s, 0, sk) := by
  rcases o with _ | e
  · exact ⟨0, rfl⟩
  · obtain ⟨⟨url, hurl⟩, hpres⟩ := h e rfl
    refine ⟨1, ?_⟩
    simp [sharedLoadStep, loadSharedClusterData_skip hurl hpres]

/-- Frame of the user-cluster phase. -/
theorem clusterLoadStep_frame (o : Option (List ClusterEntry)) (s : Store) :
    ∃ nc, (clusterLoadStep o s).1.clusters = s.clusters ++ nc ∧
      (clusterLoadStep o s).1.demoUsers = s.demoUsers ∧
      (clusterLoadStep o s).1.workshopUsers = s.workshopUsers ∧
      (clusterLoadStep o s).1.sharedClusters = s.sharedClusters := by
  rcases o with _ | es
  · exact ⟨[], by simp [clusterLoadStep], rfl, rfl, rfl⟩
  · exact loadUserClustersGo_frame es s 0 0

/-- Frame of the demo-user phase. -/
theorem demoLoadStep_frame (o : Option (List DemoEntry)) (s : Store) :
    ∃ nd, (demoLoadStep o s).1.demoUsers = s.demoUsers ++ nd ∧
      (demoLoadStep o s).1.clusters = s.clusters ∧
      (demoLoadStep o s).1.workshopUsers = s.workshopUsers ∧
      (demoLoadStep o s).1.sharedClusters = s.sharedClusters := by
  rcases o with _ | es
  · exact ⟨[], by simp [demoLoadStep], rfl, rfl, rfl⟩
  · exact loadDemoUsersGo_frame es s 0 0

/-- The user-cluster phase skips everything when every valid entry's
derived name is present. -/
theorem clusterLoadStep_skip {o : Option (List ClusterEntry)} {s : Store}
    (h : ∀ es, o = some es → ∀ e ∈ es, ∀ url, e.cluster_url = some url →
      ∃ un, e.username = some un ∧
        s.clusters.any (fun c => c.name == "cluster-" ++ un) = true) :
    ∃ skc, clusterLoadStep o s = (s, 0, skc) := by
  rcases o with _ | es
  · exact ⟨0, rfl⟩
  · exact ⟨es.length,
      by simpa [clusterLoadStep] using loadUserClustersGo_skip_all es s 0 0 (h es rfl)⟩

/-- The demo-user phase skips everything when every valid entry's
username is present. -/
theorem demoLoadStep_skip {o : Option (List DemoEntry)} {s : Store}
    (h : ∀ es, o = some es → ∀ e ∈ es, ∀ un pw, e.username = some un →
      e.password = some pw →
      s.demoUsers.any (fun d => d.username == un) = true) :
    ∃ skd, demoLoadStep o s = (s, 0, skd) := by
  rcases o with _ | es
  · exact ⟨0, rfl⟩
  · exact ⟨es.length,
      by simpa [demoLoadStep] using loadDemoUsersGo_skip_all es s 0 0 (h es rfl)⟩

/-- C8 (amended): the bulk loader never overwrites — a run only appends
records, leaving every existing Cluster, DemoUser, SharedCluster and the
workshop users untouched.  A second run on the same data file always
succeeds, adds zero demo users and zero shared clusters, and leaves the
demo-user, shared-cluster and workshop-user tables unchanged; when
additionally every cluster entry with a `cluster_url` carries a
`username`, the second run returns the very same store and also adds zero
clusters (the counterexample shows this last part fails without the
username condition). -/
theorem loader_never_overwrites_and_idempotent_with_usernames
    (d : YamlData) (s s1 : Store) (c1 : LoadCounts)
    (hrun1 : loadFromYaml d s = some (s1, c1)) :
    (∃ nc, s1.clusters = s.clusters ++ nc) ∧
    (∃ nd, s1.demoUsers = s.demoUsers ++ nd) ∧
    (∃ ns, s1.sharedClusters = s.sharedClusters ++ ns) ∧
    s1.workshopUsers = s.workshopUsers ∧
    (∃ s2 c2, loadFromYaml d s1 = some (s2, c2) ∧
      c2.demoUsersAdded = 0 ∧ c2.sharedAdded = 0 ∧
      s2.demoUsers = s1.demoUsers ∧
      s2.sharedClusters = s1.sharedClusters ∧
      s2.workshopUsers = s1.workshopUsers ∧
      ((∀ es, d.user_clusters = some es →
          ∀ e ∈ es, ∀ url, e.cluster_url = some url →
            ∃ un, e.username = some un) →
        s2 = s1 ∧ c2.clustersAdded = 0)) := by
  rw [loadFromYaml_decomp] at hrun1
  rcases hsh : sharedLoadStep d.shared_cluster s with _ | ⟨sA, sa, sk⟩
  · rw [hsh] at hrun1; cases hrun1
  · rw [hsh] at hrun1
    injection hrun1 with h1
    have hs1 : (demoLoadStep d.demo_users
        (clusterLoadStep d.user_clusters sA).1).1 = s1 :=
      congrArg Prod.fst h1
    obtain ⟨⟨nsh, hshared⟩, hshcl, hshdm, hshwu, hshpres⟩ :=
      sharedLoadStep_shape hsh
    obtain ⟨nc, hcl, hcldm, hclwu, hclsh⟩ :=
      clusterLoadStep_frame d.user_clusters sA
    obtain ⟨nd, hdm, hdmcl, hdmwu, hdmsh⟩ :=
      demoLoadStep_frame d.demo_users (clusterLoadStep d.user_clusters sA).1
    -- frame facts about s1
    have hs1cl : s1.clusters = s.clusters ++ nc := by
      rw [← hs1, hdmcl, hcl, hshcl]
    have hs1dm : s1.demoUsers = s.demoUsers ++ nd := by
      rw [← hs1, hdm, hcldm, hshdm]
    have hs1sh : s1.sharedClusters = s.sharedClusters ++ nsh := by
      rw [← hs1, hdmsh, hclsh, hshared]
    have hs1wu : s1.workshopUsers = s.workshopUsers := by
      rw [← hs1, hdmwu, hclwu, hshwu]
    refine ⟨⟨nc, hs1cl⟩, ⟨nd, hs1dm⟩, ⟨nsh, hs1sh⟩, hs1wu, ?_⟩
    -- second run: shared phase skips, unconditionally
    have hs1shEq : s1.sharedClusters =
        (clusterLoadStep d.user_clusters sA).1.sharedClusters := by
      rw [← hs1, hdmsh]
    obtain ⟨sk', hsh2⟩ := sharedLoadStep_skip
      (o := d.shared_cluster) (s := s1) (fun e he => by
        obtain ⟨hurl, hpres⟩ := hshpres e he
        refine ⟨hurl, ?_⟩
        rw [hs1shEq, hclsh]
        exact hpres)
    -- second run: cluster phase, general frame (it may add records)
    obtain ⟨nc2, hc2cl, hc2dm, hc2wu, hc2sh⟩ :=
      clusterLoadStep_frame d.user_clusters s1
    -- second run: demo phase skips, unconditionally
    obtain ⟨skd, hdm2⟩ := demoLoadStep_skip
      (o := d.demo_users) (s := (clusterLoadStep d.user_clusters s1).1)
      (fun es hes e he un pw hun hpw => by
        rw [hc2dm]
        have : s1.demoUsers = (loadDemoUsersGo es
            (clusterLoadStep d.user_clusters sA).1 0 0).1.demoUsers := by
          rw [← hs1, hes]; rfl
        rw [this]
        exact loadDemoUsersGo_names_present es
          (clusterLoadStep d.user_clusters sA).1 0 0 e he un pw hun hpw)
    refine ⟨(clusterLoadStep d.user_clusters s1).1,
      ⟨(clusterLoadStep d.user_clusters s1).2.1,
       (clusterLoadStep d.user_clusters s1).2.2, 0, skd, 0, sk'⟩,
      ?_, rfl, rfl, hc2dm, hc2sh, hc2wu, ?_⟩
    · rw [loadFromYaml_decomp]
      simp [hsh2, hdm2]
    · -- with usernames everywhere, the cluster phase skips too
      intro husr
      have hs1clEq : s1.clusters =
          (clusterLoadStep d.user_clusters sA).1.clusters := by
        rw [← hs1, hdmcl]
      obtain ⟨skc, hcl2⟩ := clusterLoadStep_skip
        (o := d.user_clusters) (s := s1) (fun es hes e he url hurl => by
          obtain ⟨un, hun⟩ := husr es hes e he url hurl
          refine ⟨un, hun, ?_⟩
          rw [hs1clEq]
          have : (clusterLoadStep d.user_clusters sA).1.clusters =
              (loadUserClustersGo es sA 0 0).1.clusters := by
            rw [hes]; rfl
          rw [this]
          exact loadUserClustersGo_names_present es sA 0 0 e he url un
            hurl hun)
      constructor
      · rw [hcl2]
      · show (clusterLoadStep d.user_clusters s1).2.1 = 0
        rw [hcl2]

/-- A data file whose every cluster entry carries a username. -/
def goodYaml : YamlData :=
  ⟨some ⟨some "https://sh", none⟩,
   some [⟨some "https://a", some "bob"⟩],
   some [⟨some "alice", some "pw"⟩]⟩

/-- The store produced by one `load-yaml` run of `goodYaml` against the
empty store. -/
def goodLoaded : Store :=
  ⟨[⟨1, "cluster-bob", "https://a", "", "", false, none, none⟩],
   [⟨1, none, "alice", "pw", false, none, none⟩],
   [],
   [⟨1, "shared-cluster", "https://sh"⟩]⟩

/-- C8 witness: the amended loader theorem applied to `goodYaml` against
the empty store. -/
theorem loader_never_overwrites_and_idempotent_with_usernames_witness :
    loadFromYaml goodYaml emptyStore =
      some (goodLoaded, ⟨1, 0, 1, 0, 1, 0⟩) ∧
    ∃ s2 c2, loadFromYaml goodYaml goodLoaded = some (s2, c2) ∧
      c2.demoUsersAdded = 0 ∧ c2.sharedAdded = 0 ∧
      s2.demoUsers = goodLoaded.demoUsers ∧
      s2.sharedClusters = goodLoaded.sharedClusters ∧
      s2.workshopUsers = goodLoaded.workshopUsers ∧
      ((∀ es, goodYaml.user_clusters = some es →
          ∀ e ∈ es, ∀ url, e.cluster_url = some url →
            ∃ un, e.username = some un) →
        s2 = goodLoaded ∧ c2.clustersAdded = 0) :=
  ⟨by decide,
   (loader_never_overwrites_and_idempotent_with_usernames goodYaml
     emptyStore goodLoaded ⟨1, 0, 1, 0, 1, 0⟩ (by decide)).2.2.2.2⟩

/-- C2 witness: the no-orphan theorem applied to a Prisma login against
`boundStore` (its only cluster being already reserved and bound). -/
theorem prisma_login_no_orphan_reservation_witness :
    (⟨1, "c1", "https://c1", "", "", true, some "p@x", some 1⟩ : Cluster) ∈
      (prismaLogin (fun _ _ => true) (fun h => h) "tk" 3 id List.head?
        "new@x" "pass" boundStore).2.clusters ∧
    ((∃ c0 ∈ boundStore.clusters, c0.id = 1 ∧ c0.isReserved = true) ∨
     (∃ u ∈ (prismaLogin (fun _ _ => true) (fun h => h) "tk" 3 id
         List.head? "new@x" "pass" boundStore).2.workshopUsers,
       u.clusterId = some 1)) :=
  ⟨by decide,
   prisma_login_no_orphan_reservation (fun _ _ => true) (fun h => h) "tk" 3
     id List.head? "new@x" "pass" boundStore
     ⟨1, "c1", "https://c1", "", "", true, some "p@x", some 1⟩
     (by decide) (by decide)⟩

/-! ### Mutual exclusion in the raw-SQL variant (C1, amended)

In the raw-SQL variant every store mutation of a request handler executes
synchronously (better-sqlite3), so a run of the system is a sequence of
login / logout / release operations over the store.  The invariant below
is preserved by every operation and implies that no Cluster and no
DemoUser is ever referenced by two Participants at once. -/

/-- Participants have pairwise distinct emails (UNIQUE column). -/
def UniqueEmails (s : Store) : Prop :=
  s.workshopUsers.Pairwise (fun a b => a.email ≠ b.email)

/-- Participants have pairwise distinct ids (PRIMARY KEY). -/
def UniqueUserIds (s : Store) : Prop :=
  s.workshopUsers.Pairwise (fun a b => a.id ≠ b.id)

/-- Clusters have pairwise distinct ids (PRIMARY KEY). -/
def UniqueClusterIds (s : Store) : Prop :=
  s.clusters.Pairwise (fun a b => a.id ≠ b.id)

/-- Demo users have pairwise distinct ids (PRIMARY KEY). -/
def UniqueDemoIds (s : Store) : Prop :=
  s.demoUsers.Pairwise (fun a b => a.id ≠ b.id)

/-- Every cluster referenced by a Participant is reserved by that
Participant's email. -/
def RefClusterOK (s : Store) : Prop :=
  ∀ u ∈ s.workshopUsers, ∀ c ∈ s.clusters, u.clusterId = some c.id →
    c.isReserved = true ∧ c.reservedBy = some u.email

/-- Every demo user referenced by a Participant is reserved by that
Participant's email. -/
def RefDemoOK (s : Store) : Prop :=
  ∀ u ∈ s.workshopUsers, ∀ d ∈ s.demoUsers, u.demoUserId = some d.id →
    d.isReserved = true ∧ d.reservedBy = some u.email

/-- The store invariant of the raw-SQL variant. -/
def StoreInv (s : Store) : Prop :=
  UniqueEmails s ∧ UniqueUserIds s ∧ UniqueClusterIds s ∧
  UniqueDemoIds s ∧ RefClusterOK s ∧ RefDemoOK s

/-- No reserved Cluster is referenced by two Participants. -/
def MutexClusters (s : Store) : Prop :=
  ∀ c ∈ s.clusters, c.isReserved = true →
    (s.workshopUsers.filter (fun u => u.clusterId == some c.id)).length ≤ 1

/-- No reserved DemoUser is referenced by two Participants. -/
def MutexDemoUsers (s : Store) : Prop :=
  ∀ d ∈ s.demoUsers, d.isReserved = true →
    (s.workshopUsers.filter (fun u => u.demoUserId == some d.id)).length ≤ 1

/-- A filter keeps at most one element when the kept elements all share an
image under a function that is pairwise distinct on the list. -/
theorem filter_length_le_one_of_pairwise {α β : Type} {f : α → β} {x : β} :
    ∀ {l : List α} {p : α → Bool},
      l.Pairwise (fun a b => f a ≠ f b) →
      (∀ a ∈ l, p a = true → f a = x) →
      (l.filter p).length ≤ 1 := by
  intro l
  induction l with
  | nil => intro p _ _; simp
  | cons y t ih =>
    intro p hpw hall
    by_cases hy : p y = true
    · rw [List.filter_cons_of_pos hy]
      have htnil : t.filter p = [] := by
        rw [List.filter_eq_nil_iff]
        intro b hb hpb
        have hfb : f b = x := hall b (List.mem_cons_of_mem _ hb) hpb
        have hfy : f y = x := hall y (List.mem_cons_self y t) hy
        exact absurd (hfy.trans hfb.symm)
          ((List.pairwise_cons.mp hpw).1 b hb)
      rw [htnil]
      simp
    · rw [List.filter_cons_of_neg hy]
      exact ih (List.pairwise_cons.mp hpw).2
        (fun a ha hpa => hall a (List.mem_cons_of_mem _ ha) hpa)

/-- The invariant yields mutual exclusion for clusters and demo users. -/
theorem storeInv_mutex {s : Store} (h : StoreInv s) :
    MutexClusters s ∧ MutexDemoUsers s := by
  obtain ⟨hem, _, _, _, hrc, hrd⟩ := h
  constructor
  · intro c hc _
    rcases hrb : c.reservedBy with _ | rb
    · have : s.workshopUsers.filter
          (fun u => u.clusterId == some c.id) = [] := by
        rw [List.filter_eq_nil_iff]
        intro u hu hp
        have := (hrc u hu c hc (by simpa using hp)).2
        rw [hrb] at this
        cases this
      rw [this]
      simp
    · exact filter_length_le_one_of_pairwise hem
        (fun u hu hp => by
          have := (hrc u hu c hc (by simpa using hp)).2
          rw [hrb] at this
          injection this with h'
          exact h'.symm)
  · intro d hd _
    rcases hrb : d.reservedBy with _ | rb
    · have : s.workshopUsers.filter
          (fun u => u.demoUserId == some d.id) = [] := by
        rw [List.filter_eq_nil_iff]
        intro u hu hp
        have := (hrd u hu d hd (by simpa using hp)).2
        rw [hrb] at this
        cases this
      rw [this]
      simp
    · exact filter_length_le_one_of_pairwise hem
        (fun u hu hp => by
          have := (hrd u hu d hd (by simpa using hp)).2
          rw [hrb] at this
          injection this with h'
          exact h'.symm)

/-- A workshop-user update that keeps id, email and both references
preserves the invariant. -/
theorem storeInv_users_map_frame (s : Store) (g : WorkshopUser → WorkshopUser)
    (hid : ∀ u, (g u).id = u.id) (hemail : ∀ u, (g u).email = u.email)
    (hcl : ∀ u, (g u).clusterId = u.clusterId)
    (hdm : ∀ u, (g u).demoUserId = u.demoUserId)
    (h : StoreInv s) :
    StoreInv ⟨s.clusters, s.demoUsers, s.workshopUsers.map g,
      s.sharedClusters⟩ := by
  obtain ⟨hem, hui, hci, hdi, hrc, hrd⟩ := h
  refine ⟨?_, ?_, hci, hdi, ?_, ?_⟩
  · exact List.pairwise_map.mpr (hem.imp (by
      intro a b hab
      rw [hemail a, hemail b]
      exact hab))
  · exact List.pairwise_map.mpr (hui.imp (by
      intro a b hab
      rw [hid a, hid b]
      exact hab))
  · intro u' hu' c hc hcid
    rcases List.mem_map.mp hu' with ⟨u, hu, rfl⟩
    rw [hcl u] at hcid
    rw [hemail u]
    exact hrc u hu c hc hcid
  · intro u' hu' d hd hdid
    rcases List.mem_map.mp hu' with ⟨u, hu, rfl⟩
    rw [hdm u] at hdid
    rw [hemail u]
    exact hrd u hu d hd hdid

/-- The conditional cluster reservation preserves the invariant: by the
invariant, a referenced cluster is already reserved, so its record is
outside the conditional update's guard. -/
theorem storeInv_reserveClusterCAS (s : Store) (cid : Nat) (em : String)
    (now : Nat) (h : StoreInv s) :
    StoreInv (reserveClusterCAS s cid em now).1 := by
  obtain ⟨hem, hui, hci, hdi, hrc, hrd⟩ := h
  refine ⟨hem, hui, ?_, hdi, ?_, hrd⟩
  · exact List.pairwise_map.mpr (hci.imp (by
      intro a b hab
      by_cases ha : a.id == cid && !a.isReserved <;>
        by_cases hb : b.id == cid && !b.isReserved <;>
          simp [ha, hb] <;> exact hab))
  · intro u hu c' hc' hcid
    rcases List.mem_map.mp hc' with ⟨c0, hc0, rfl⟩
    by_cases hcond : c0.id == cid && !c0.isReserved
    · exfalso
      have hcid0 : u.clusterId = some c0.id := by
        simpa [hcond] using hcid
      have := (hrc u hu c0 hc0 hcid0).1
      simp only [Bool.and_eq_true, beq_iff_eq, Bool.not_eq_true'] at hcond
      rw [this] at hcond
      cases hcond.2
    · have hcid0 : u.clusterId = some c0.id := by
        simpa [hcond] using hcid
      simpa [hcond] using hrc u hu c0 hc0 hcid0

/-- The conditional demo-user reservation preserves the invariant. -/
theorem storeInv_reserveDemoUserCAS (s : Store) (did : Nat) (em : String)
    (now : Nat) (h : StoreInv s) :
    StoreInv (reserveDemoUserCAS s did em now).1 := by
  obtain ⟨hem, hui, hci, hdi, hrc, hrd⟩ := h
  refine ⟨hem, hui, hci, ?_, hrc, ?_⟩
  · exact List.pairwise_map.mpr (hdi.imp (by
      intro a b hab
      by_cases ha : a.id == did && !a.isReserved <;>
        by_cases hb : b.id == did && !b.isReserved <;>
          simp [ha, hb] <;> exact hab))
  · intro u hu d' hd' hdid
    rcases List.mem_map.mp hd' with ⟨d0, hd0, rfl⟩
    by_cases hcond : d0.id == did && !d0.isReserved
    · exfalso
      have hdid0 : u.demoUserId = some d0.id := by
        simpa [hcond] using hdid
      have := (hrd u hu d0 hd0 hdid0).1
      simp only [Bool.and_eq_true, beq_iff_eq, Bool.not_eq_true'] at hcond
      rw [this] at hcond
      cases hcond.2
    · have hdid0 : u.demoUserId = some d0.id := by
        simpa [hcond] using hdid
      simpa [hcond] using hrd u hu d0 hd0 hdid0

/-- Inserting a fresh participant (new email, fresh id, NULL references)
preserves the invariant. -/
theorem storeInv_insertUser (s : Store) (email ph : String)
    (h : StoreInv s) (hnew : findUserByEmail s email = none) :
    StoreInv (insertUser s email ph).2 := by
  obtain ⟨hem, hui, hci, hdi, hrc, hrd⟩ := h
  have hfresh : ∀ u ∈ s.workshopUsers, u.email ≠ email := by
    intro u hu
    have := List.find?_eq_none.mp hnew u hu
    simpa using this
  refine ⟨?_, ?_, hci, hdi, ?_, ?_⟩
  · refine List.pairwise_append.mpr ⟨hem, List.pairwise_singleton _ _, ?_⟩
    intro a ha b hb
    rw [List.mem_singleton.mp hb]
    exact hfresh a ha
  · refine List.pairwise_append.mpr ⟨hui, List.pairwise_singleton _ _, ?_⟩
    intro a ha b hb
    rw [List.mem_singleton.mp hb]
    exact Nat.ne_of_lt (id_lt_nextUserId s a ha)
  · intro u hu c hc hcid
    rcases List.mem_append.mp hu with hu' | hu'
    · exact hrc u hu' c hc hcid
    · rw [List.mem_singleton.mp hu'] at hcid
      cases hcid
  · intro u hu d hd hdid
    rcases List.mem_append.mp hu with hu' | hu'
    · exact hrd u hu' d hd hdid
    · rw [List.mem_singleton.mp hu'] at hdid
      cases hdid

/-- Binding a participant to a cluster/demo-user pair preserves the
invariant, provided both records are reserved by the caller's email. -/
theorem storeInv_bindUser (s : Store) (uid cid did : Nat) (tk em : String)
    (now : Nat) (h : StoreInv s)
    (hc : ∀ c ∈ s.clusters, c.id = cid →
      c.isReserved = true ∧ c.reservedBy = some em)
    (hd : ∀ d ∈ s.demoUsers, d.id = did →
      d.isReserved = true ∧ d.reservedBy = some em)
    (hu : ∀ u ∈ s.workshopUsers, u.id = uid → u.email = em) :
    StoreInv (bindUser s uid cid did tk now) := by
  obtain ⟨hem, hui, hci, hdi, hrc, hrd⟩ := h
  refine ⟨?_, ?_, hci, hdi, ?_, ?_⟩
  · exact List.pairwise_map.mpr (hem.imp (by
      intro a b hab
      by_cases ha : a.id == uid <;> by_cases hb : b.id == uid <;>
        simp [ha, hb] <;> exact hab))
  · exact List.pairwise_map.mpr (hui.imp (by
      intro a b hab
      by_cases ha : a.id == uid <;> by_cases hb : b.id == uid <;>
        simp [ha, hb] <;> exact hab))
  · intro u' hu' c hcm hcid
    rcases List.mem_map.mp hu' with ⟨u, hum, rfl⟩
    by_cases hcond : u.id == uid
    · have hcid' : cid = c.id := by
        simp only [hcond, if_true] at hcid
        injection hcid
      have := hc c hcm hcid'.symm
      refine ⟨this.1, ?_⟩
      rw [this.2]
      have : u.email = em := hu u hum (by simpa using hcond)
      simp [hcond, this]
    · have hcid' : u.clusterId = some c.id := by
        simpa [hcond] using hcid
      have := hrc u hum c hcm hcid'
      simpa [hcond] using this
  · intro u' hu' d hdm hdid
    rcases List.mem_map.mp hu' with ⟨u, hum, rfl⟩
    by_cases hcond : u.id == uid
    · have hdid' : did = d.id := by
        simp only [hcond, if_true] at hdid
        injection hdid
      have := hd d hdm hdid'.symm
      refine ⟨this.1, ?_⟩
      rw [this.2]
      have : u.email = em := hu u hum (by simpa using hcond)
      simp [hcond, this]
    · have hdid' : u.demoUserId = some d.id := by
        simpa [hcond] using hdid
      have := hrd u hum d hdm hdid'
      simpa [hcond] using this

/-- Releasing a bound pair preserves the invariant: the released cluster
and demo user can only have been referenced by the releasing participant,
whose references are cleared in the same operation. -/
theorem storeInv_release (s : Store) (p : WorkshopUser) (cid did : Nat)
    (h : StoreInv s) (hpm : p ∈ s.workshopUsers)
    (hpcid : p.clusterId = some cid) (hpdid : p.demoUserId = some did) :
    StoreInv (clearAssignment
      (unreserveDemoUser (unreserveCluster s cid) did) p.id) := by
  obtain ⟨hem, hui, hci, hdi, hrc, hrd⟩ := h
  refine ⟨?_, ?_, ?_, ?_, ?_, ?_⟩
  · exact List.pairwise_map.mpr (hem.imp (by
      intro a b hab
      by_cases ha : a.id == p.id <;> by_cases hb : b.id == p.id <;>
        simp [ha, hb] <;> exact hab))
  · exact List.pairwise_map.mpr (hui.imp (by
      intro a b hab
      by_cases ha : a.id == p.id <;> by_cases hb : b.id == p.id <;>
        simp [ha, hb] <;> exact hab))
  · exact List.pairwise_map.mpr (hci.imp (by
      intro a b hab
      by_cases ha : a.id == cid <;> by_cases hb : b.id == cid <;>
        simp [ha, hb] <;> exact hab))
  · exact List.pairwise_map.mpr (hdi.imp (by
      intro a b hab
      by_cases ha : a.id == did <;> by_cases hb : b.id == did <;>
        simp [ha, hb] <;> exact hab))
  · intro u' hu' c' hc' hcid
    rcases List.mem_map.mp hu' with ⟨u, hum, rfl⟩
    rcases List.mem_map.mp hc' with ⟨c0, hc0m, rfl⟩
    by_cases hcond : u.id == p.id
    · simp [hcond] at hcid
    · have hcid0 : u.clusterId = some c0.id := by
        by_cases hcc : c0.id == cid <;> simpa [hcond, hcc] using hcid
      by_cases hcc : c0.id == cid
      · exfalso
        have hceq : c0.id = cid := by simpa using hcc
        have h1 := hrc u hum c0 hc0m hcid0
        have h2 := hrc p hpm c0 hc0m (by rw [hceq]; exact hpcid)
        have heme : u.email = p.email := by
          have := h1.2.symm.trans h2.2
          injection this
        have : u = p := eq_of_pairwise_ne_of_eq hem hum hpm heme
        rw [this] at hcond
        simp at hcond
      · have := hrc u hum c0 hc0m hcid0
        simpa [hcond, hcc] using this
  · intro u' hu' d' hd' hdid
    rcases List.mem_map.mp hu' with ⟨u, hum, rfl⟩
    rcases List.mem_map.mp hd' with ⟨d0, hd0m, rfl⟩
    by_cases hcond : u.id == p.id
    · simp [hcond] at hdid
    · have hdid0 : u.demoUserId = some d0.id := by
        by_cases hdd : d0.id == did <;> simpa [hcond, hdd] using hdid
      by_cases hdd : d0.id == did
      · exfalso
        have hdeq : d0.id = did := by simpa using hdd
        have h1 := hrd u hum d0 hd0m hdid0
        have h2 := hrd p hpm d0 hd0m (by rw [hdeq]; exact hpdid)
        have heme : u.email = p.email := by
          have := h1.2.symm.trans h2.2
          injection this
        have : u = p := eq_of_pairwise_ne_of_eq hem hum hpm heme
        rw [this] at hcond
        simp at hcond
      · have := hrd u hum d0 hd0m hdid0
        simpa [hcond, hdd] using this

/-- When the conditional cluster reservation reports a change, every
record carrying the candidate id is reserved by the caller afterwards. -/
theorem reserveClusterCAS_success (s : Store) (cid : Nat) (em : String)
    (now : Nat) (hci : UniqueClusterIds s)
    (hne : (reserveClusterCAS s cid em now).2 ≠ 0) :
    ∀ c' ∈ (reserveClusterCAS s cid em now).1.clusters, c'.id = cid →
      c'.isReserved = true ∧ c'.reservedBy = some em := by
  have hpos : 0 < (s.clusters.filter
      (fun c => c.id == cid && !c.isReserved)).length :=
    Nat.pos_of_ne_zero hne
  obtain ⟨c0, hc0f⟩ := List.exists_mem_of_length_pos hpos
  obtain ⟨hc0m, hc0p⟩ := List.mem_filter.mp hc0f
  simp only [Bool.and_eq_true, beq_iff_eq, Bool.not_eq_true'] at hc0p
  intro c' hc' hcid
  rcases List.mem_map.mp hc' with ⟨x, hxm, rfl⟩
  by_cases hcond : x.id == cid && !x.isReserved
  · simp [hcond]
  · exfalso
    have hxid : x.id = cid := by
      by_cases hcnd : x.id == cid && !x.isReserved <;>
        simpa [hcnd] using hcid
    have hxeq : x = c0 := eq_of_pairwise_ne_of_eq hci hxm hc0m
      (hxid.trans hc0p.1.symm)
    rw [hxeq] at hcond
    simp [hc0p.1, hc0p.2] at hcond

/-- When the conditional demo-user reservation reports a change, every
record carrying the candidate id is reserved by the caller afterwards. -/
theorem reserveDemoUserCAS_success (s : Store) (did : Nat) (em : String)
    (now : Nat) (hdi : UniqueDemoIds s)
    (hne : (reserveDemoUserCAS s did em now).2 ≠ 0) :
    ∀ d' ∈ (reserveDemoUserCAS s did em now).1.demoUsers, d'.id = did →
      d'.isReserved = true ∧ d'.reservedBy = some em := by
  have hpos : 0 < (s.demoUsers.filter
      (fun d => d.id == did && !d.isReserved)).length :=
    Nat.pos_of_ne_zero hne
  obtain ⟨d0, hd0f⟩ := List.exists_mem_of_length_pos hpos
  obtain ⟨hd0m, hd0p⟩ := List.mem_filter.mp hd0f
  simp only [Bool.and_eq_true, beq_iff_eq, Bool.not_eq_true'] at hd0p
  intro d' hd' hdid
  rcases List.mem_map.mp hd' with ⟨x, hxm, rfl⟩
  by_cases hcond : x.id == did && !x.isReserved
  · simp [hcond]
  · exfalso
    have hxid : x.id = did := by
      by_cases hcnd : x.id == did && !x.isReserved <;>
        simpa [hcnd] using hdid
    have hxeq : x = d0 := eq_of_pairwise_ne_of_eq hdi hxm hd0m
      (hxid.trans hd0p.1.symm)
    rw [hxeq] at hcond
    simp [hd0p.1, hd0p.2] at hcond

/-- The raw-SQL reservation loop preserves the invariant. -/
theorem storeInv_sqlTryClusters (em : String) (uid : Nat) (tk : String)
    (now : Nat) (pick : List DemoUser → Option DemoUser) :
    ∀ (cands : List Cluster) (s : Store), StoreInv s →
      (∀ u ∈ s.workshopUsers, u.id = uid → u.email = em) →
      StoreInv (sqlTryClusters em uid tk now pick cands s).2 := by
  intro cands
  induction cands with
  | nil => intro s h _; exact h
  | cons c rest ih =>
    intro s h hmail
    have hinv1 : StoreInv (reserveClusterCAS s c.id em now).1 :=
      storeInv_reserveClusterCAS s c.id em now h
    have hmail1 : ∀ u ∈ (reserveClusterCAS s c.id em now).1.workshopUsers,
        u.id = uid → u.email = em := hmail
    by_cases h1 : (reserveClusterCAS s c.id em now).2 = 0
    · rw [sqlTryClusters_cons, if_pos h1]
      exact ih _ hinv1 hmail1
    · rcases h2 : pick (availableDemoUsersFor
          (reserveClusterCAS s c.id em now).1 c.id) with _ | d
      · rw [sqlTryClusters_cons, if_neg h1, h2]
        exact ih _ hinv1 hmail1
      · have hinv2 : StoreInv (reserveDemoUserCAS
            (reserveClusterCAS s c.id em now).1 d.id em now).1 :=
          storeInv_reserveDemoUserCAS _ d.id em now hinv1
        have hmail2 : ∀ u ∈ (reserveDemoUserCAS
            (reserveClusterCAS s c.id em now).1 d.id em now).1.workshopUsers,
            u.id = uid → u.email = em := hmail
        by_cases h3 : (reserveDemoUserCAS
            (reserveClusterCAS s c.id em now).1 d.id em now).2 = 0
        · have hstep : sqlTryClusters em uid tk now pick (c :: rest) s =
              sqlTryClusters em uid tk now pick rest (reserveDemoUserCAS
                (reserveClusterCAS s c.id em now).1 d.id em now).1 := by
            rw [sqlTryClusters_cons, if_neg h1]
            simp only [h2]
            rw [if_pos h3]
          rw [hstep]
          exact ih _ hinv2 hmail2
        · have hgoal : StoreInv (bindUser (reserveDemoUserCAS
              (reserveClusterCAS s c.id em now).1 d.id em now).1
              uid c.id d.id tk now) := by
            apply storeInv_bindUser _ uid c.id d.id tk em now hinv2
            · intro c' hc' hcid
              exact reserveClusterCAS_success s c.id em now h.2.2.1 h1 c'
                hc' hcid
            · intro d' hd' hdid
              exact reserveDemoUserCAS_success _ d.id em now
                hinv1.2.2.2.1 h3 d' hd' hdid
            · exact hmail2
          have hstep : sqlTryClusters em uid tk now pick (c :: rest) s =
              (.success tk c.name c.url d.username d.password,
               bindUser (reserveDemoUserCAS
                 (reserveClusterCAS s c.id em now).1 d.id em now).1
                 uid c.id d.id tk now) := by
            rw [sqlTryClusters_cons, if_neg h1]
            simp only [h2]
            rw [if_neg h3]
          rw [hstep]
          exact hgoal

/-- The allocation section of the raw-SQL login preserves the invariant. -/
theorem storeInv_sqlAllocate (token : String) (now : Nat)
    (shuffle : List Cluster → List Cluster)
    (pick : List DemoUser → Option DemoUser)
    (user : WorkshopUser) (s : Store) (h : StoreInv s)
    (hmail : ∀ u ∈ s.workshopUsers, u.id = user.id → u.email = user.email) :
    StoreInv (sqlAllocate token now shuffle pick user s).2 := by
  unfold sqlAllocate
  by_cases hemp : (availableClusters s).isEmpty
  · rw [if_pos hemp]
    exact h
  · rw [if_neg hemp]
    exact storeInv_sqlTryClusters user.email user.id token now pick _ s h
      hmail

/-- `POST /api/auth/login` of the raw-SQL variant preserves the
invariant, for every oracle (bcrypt, uuid, shuffle, random pick). -/
theorem storeInv_sqlLogin (compare : String → String → Bool)
    (hash : String → String) (token : String) (now : Nat)
    (shuffle : List Cluster → List Cluster)
    (pick : List DemoUser → Option DemoUser)
    (email password : String) (s : Store) (h : StoreInv s) :
    StoreInv (sqlLogin compare hash token now shuffle pick
      email password s).2 := by
  by_cases hval1 : email = "" ∨ password = ""
  · have hstep : sqlLogin compare hash token now shuffle pick
        email password s = (.invalidInput, s) := by
      simp [sqlLogin, hval1]
    rw [hstep]
    exact h
  · by_cases hval2 : password.length < 4
    · have hstep : sqlLogin compare hash token now shuffle pick
          email password s = (.invalidInput, s) := by
        simp [sqlLogin, hval1, hval2]
      rw [hstep]
      exact h
    · rcases hfind : findUserByEmail s email with _ | p
      · have hstep : sqlLogin compare hash token now shuffle pick
            email password s =
            sqlAllocate token now shuffle pick
              (insertUser s email (hash password)).1
              (insertUser s email (hash password)).2 := by
          simp [sqlLogin, hval1, hval2, hfind]
        rw [hstep]
        apply storeInv_sqlAllocate
        · exact storeInv_insertUser s email (hash password) h hfind
        · intro u hu hid
          rcases List.mem_append.mp hu with hu' | hu'
          · exact absurd hid (Nat.ne_of_lt (id_lt_nextUserId s u hu'))
          · rw [List.mem_singleton.mp hu']
            rfl
      · have hpm : p ∈ s.workshopUsers := List.mem_of_find?_eq_some hfind
        have hmail : ∀ u ∈ s.workshopUsers, u.id = p.id →
            u.email = p.email := by
          intro u hu hid
          rw [eq_of_pairwise_ne_of_eq h.2.1 hu hpm hid]
        by_cases hcmp : compare password p.passwordHash
        · rcases hcid : p.clusterId with _ | cid
          · have hstep : sqlLogin compare hash token now shuffle pick
                email password s = sqlAllocate token now shuffle pick p s := by
              simp [sqlLogin, hval1, hval2, hfind, hcmp, hcid]
            rw [hstep]
            exact storeInv_sqlAllocate token now shuffle pick p s h hmail
          · rcases hdid : p.demoUserId with _ | did
            · have hstep : sqlLogin compare hash token now shuffle pick
                  email password s =
                  sqlAllocate token now shuffle pick p s := by
                simp [sqlLogin, hval1, hval2, hfind, hcmp, hcid, hdid]
              rw [hstep]
              exact storeInv_sqlAllocate token now shuffle pick p s h hmail
            · rcases hc : findClusterById s cid with _ | c
              · have hstep : sqlLogin compare hash token now shuffle pick
                    email password s =
                    sqlAllocate token now shuffle pick p s := by
                  simp [sqlLogin, hval1, hval2, hfind, hcmp, hcid, hdid, hc]
                rw [hstep]
                exact storeInv_sqlAllocate token now shuffle pick p s h hmail
              · rcases hd : findDemoUserById s did with _ | d
                · have hstep : sqlLogin compare hash token now shuffle pick
                      email password s =
                      sqlAllocate token now shuffle pick p s := by
                    simp [sqlLogin, hval1, hval2, hfind, hcmp, hcid, hdid,
                      hc, hd]
                  rw [hstep]
                  exact storeInv_sqlAllocate token now shuffle pick p s h
                    hmail
                · by_cases hres : c.isReserved && d.isReserved
                  · have hstep : sqlLogin compare hash token now shuffle
                        pick email password s =
                        (.success token c.name c.url d.username d.password,
                         refreshToken s p.id token now) := by
                      simp [sqlLogin, hval1, hval2, hfind, hcmp, hcid, hdid,
                        hc, hd, hres]
                    rw [hstep]
                    apply storeInv_users_map_frame s _ ?_ ?_ ?_ ?_ h <;>
                      intro u <;> by_cases hcond : u.id == p.id <;>
                        simp [hcond]
                  · have hstep : sqlLogin compare hash token now shuffle
                        pick email password s =
                        sqlAllocate token now shuffle pick p s := by
                      simp [sqlLogin, hval1, hval2, hfind, hcmp, hcid, hdid,
                        hc, hd, hres]
                    rw [hstep]
                    exact storeInv_sqlAllocate token now shuffle pick p s h
                      hmail
        · have hstep : sqlLogin compare hash token now shuffle pick
              email password s = (.invalidCredentials, s) := by
            simp [sqlLogin, hval1, hval2, hfind, hcmp]
          rw [hstep]
          exact h

/-- `POST /api/auth/logout` of the raw-SQL variant preserves the
invariant. -/
theorem storeInv_sqlLogout (token : String) (s : Store) (h : StoreInv s) :
    StoreInv (sqlLogout token s).2 := by
  by_cases htok : token = ""
  · have hstep : sqlLogout token s = (.invalidInput, s) := by
      simp [sqlLogout, htok]
    rw [hstep]
    exact h
  · rcases hfind : findUserByToken s token with _ | p
    · have hstep : sqlLogout token s = (.unauthenticated, s) := by
        simp [sqlLogout, htok, hfind]
      rw [hstep]
      exact h
    · have hstep : sqlLogout token s = (.ok, clearToken s p.id) := by
        simp [sqlLogout, htok, hfind]
      rw [hstep]
      apply storeInv_users_map_frame s _ ?_ ?_ ?_ ?_ h <;>
        intro u <;> by_cases hcond : u.id == p.id <;> simp [hcond]

/-- `POST /api/user/release` of the raw-SQL variant preserves the
invariant. -/
theorem storeInv_sqlRelease (token : String) (s : Store) (h : StoreInv s) :
    StoreInv (sqlRelease token s).2 := by
  rcases hfind : findUserByToken s token with _ | p
  · have hstep : sqlRelease token s = (.unauthenticated, s) := by
      simp [sqlRelease, hfind]
    rw [hstep]
    exact h
  · have hpm : p ∈ s.workshopUsers := List.mem_of_find?_eq_some hfind
    rcases hcid : p.clusterId with _ | cid
    · have hstep : sqlRelease token s = (.notFound, s) := by
        rcases hdid : p.demoUserId with _ | did <;>
          simp [sqlRelease, hfind, hcid, hdid]
      rw [hstep]
      exact h
    · rcases hdid : p.demoUserId with _ | did
      · have hstep : sqlRelease token s = (.notFound, s) := by
          simp [sqlRelease, hfind, hcid, hdid]
        rw [hstep]
        exact h
      · have hstep : sqlRelease token s =
            (.ok, clearAssignment
              (unreserveDemoUser (unreserveCluster s cid) did) p.id) := by
          simp [sqlRelease, hfind, hcid, hdid]
        rw [hstep]
        exact storeInv_release s p cid did h hpm hcid hdid

/-- One request against the raw-SQL variant: a login (with its random
oracles), a logout, or a release.  Each runs atomically over the store,
its store mutations being synchronous better-sqlite3 calls. -/
inductive SqlOp where
  | login (compare : String → String → Bool) (hash : String → String)
      (token : String) (now : Nat) (shuffle : List Cluster → List Cluster)
      (pick : List DemoUser → Option DemoUser) (email password : String)
  | logout (token : String)
  | release (token : String)

/-- Apply one request to the store. -/
def applySqlOp (op : SqlOp) (s : Store) : Store :=
  match op with
  | .login compare hash token now shuffle pick email password =>
    (sqlLogin compare hash token now shuffle pick email password s).2
  | .logout token => (sqlLogout token s).2
  | .release token => (sqlRelease token s).2

/-- Apply a sequence of requests to the store. -/
def applySqlOps (ops : List SqlOp) (s : Store) : Store :=
  ops.foldl (fun s op => applySqlOp op s) s

/-- Every single request preserves the invariant. -/
theorem storeInv_applySqlOp (op : SqlOp) (s : Store) (h : StoreInv s) :
    StoreInv (applySqlOp op s) := by
  rcases op with ⟨compare, hash, token, now, shuffle, pick, email,
    password⟩ | token | token
  · exact storeInv_sqlLogin compare hash token now shuffle pick email
      password s h
  · exact storeInv_sqlLogout token s h
  · exact storeInv_sqlRelease token s h

/-- C1 (amended): in the raw-SQL variant, from any store satisfying the
well-formedness invariant, after any sequence of login / logout / release
requests the invariant still holds and no Cluster and no DemoUser is held
by two Participants at once: every reserved record is referenced by at
most one Participant's `clusterId` (resp. `demoUserId`), reservations
being obtained only through the conditional `UPDATE`. -/
theorem sql_ops_preserve_mutual_exclusion (ops : List SqlOp) (s : Store)
    (h : StoreInv s) :
    StoreInv (applySqlOps ops s) ∧ MutexClusters (applySqlOps ops s) ∧
    MutexDemoUsers (applySqlOps ops s) := by
  have hinv : StoreInv (applySqlOps ops s) := by
    induction ops generalizing s with
    | nil => exact h
    | cons op rest ih => exact ih (applySqlOp op s) (storeInv_applySqlOp op s h)
  exact ⟨hinv, storeInv_mutex hinv⟩

/-- C1 witness: the mutual-exclusion theorem applied to `boundStore` and a
release followed by a fresh login. -/
theorem sql_ops_preserve_mutual_exclusion_witness :
    StoreInv boundStore ∧
    MutexClusters (applySqlOps
      [SqlOp.release "t",
       SqlOp.login (fun _ _ => true) (fun x => x) "t5" 7 id List.head?
         "q@x" "pass"] boundStore) :=
  ⟨by
     unfold StoreInv UniqueEmails UniqueUserIds UniqueClusterIds
       UniqueDemoIds RefClusterOK RefDemoOK
     decide,
   (sql_ops_preserve_mutual_exclusion
     [SqlOp.release "t",
      SqlOp.login (fun _ _ => true) (fun x => x) "t5" 7 id List.head?
        "q@x" "pass"] boundStore
     (by
       unfold StoreInv UniqueEmails UniqueUserIds UniqueClusterIds
         UniqueDemoIds RefClusterOK RefDemoOK
       decide)).2.1⟩
